import Mathlib

/-!
# hello-instance-rendering: the instanced rendering pipeline

A shallow embedding of `src/mesh.cpp` and `src/model.cpp`: the scene flattener
(`Model::loadModel`, `Model::processNode`, `Model::processMesh`), the texture cache
(`Model::loadMaterialTextures`, `TextureFromFile`), the instance stream
(`Model::loadInstances`) and the draw entry points (`Model::Draw`, `Mesh::Draw`).

Conventions of the embedding.

* The OpenGL context, the shader binding, `std::cerr`, the importer and the image decoder
  are external. Every call the program makes to them is appended to a trace kept in
  `World`; what they answer (object names, decoded images, the imported scene) is read from
  `Env`. `GL_CHECK(call)` (a macro of `utility.hpp`) is taken to make the call.
* A `float` is carried as its 32-bit pattern: the program only copies floats.
* A `for` loop with an `unsigned int` counter over a `std::vector` is a traversal of the
  list. This is exact for vectors of fewer than 2^32 elements; on a longer vector the
  counter would wrap before reaching the bound.
* Conversions between integer types are written out at their width (`size_t` to
  `unsigned int` in `toUInt32`, `unsigned int` to `int` or `GLsizei` in `toInt32`). A byte count
  `v.size() * sizeof(T)` is the size of the storage `v` occupies and does not wrap.
* An array access outside the bounds of an importer array has no defined behaviour; the
  functions that make such accesses return `none` there.
-/

set_option autoImplicit false

/-! ## Data model -/

/-- A `float`, as its bit pattern. -/
abbrev F32 := Nat

/-- The type `glm::vec2`. -/
structure Vec2 where
  x : F32
  y : F32
deriving DecidableEq, Repr

/-- The types `glm::vec3` and `aiVector3D`. -/
structure Vec3 where
  x : F32
  y : F32
  z : F32
deriving DecidableEq, Repr

/-- The type `glm::vec4`. -/
structure Vec4 where
  x : F32
  y : F32
  z : F32
  w : F32
deriving DecidableEq, Repr

/-- The type `glm::mat4`: four columns. -/
structure Mat4 where
  c0 : Vec4
  c1 : Vec4
  c2 : Vec4
  c3 : Vec4
deriving DecidableEq, Repr

/-- Modelled from the spec: `struct Vertex` of `mesh.hpp` (position, normal, texcoord).
`Normal` is `none` while the field has not been assigned (`Vertex vertex;` does not
initialise it). -/
structure Vertex where
  Position : Vec3
  Normal : Option Vec3
  TexCoords : Vec2
deriving DecidableEq, Repr

/-- Modelled from the spec: `struct Texture` of `mesh.hpp` (handle, role name, source path). -/
structure Texture where
  id : Nat
  type : String
  path : String
deriving DecidableEq, Repr

/-- Modelled from the spec: the data members of `class Mesh` of `mesh.hpp`. -/
structure Mesh where
  vertices : List Vertex
  indices : List Nat
  textures : List Texture
  VAO : Nat
  VBO : Nat
  EBO : Nat
deriving DecidableEq, Repr

/-- Modelled from the spec: `sizeof(Vertex)`, eight floats. -/
def sizeof_Vertex : Nat := 32

/-- Modelled from the spec: `offsetof(Vertex, Normal)`. -/
def offsetof_Vertex_Normal : Nat := 12

/-- Modelled from the spec: `offsetof(Vertex, TexCoords)`. -/
def offsetof_Vertex_TexCoords : Nat := 24

/-- The size `sizeof(unsigned int)`. -/
def sizeof_unsigned_int : Nat := 4

/-- The size `sizeof(glm::vec4)`. -/
def sizeof_vec4 : Nat := 16

/-- The size `sizeof(glm::mat4)`. -/
def sizeof_mat4 : Nat := 64

/-! ## The importer's scene (Assimp) -/

/-- The texture-type slots of a material (`aiTextureType`). -/
inductive aiTextureType where
  | NONE
  | DIFFUSE
  | SPECULAR
  | AMBIENT
  | EMISSIVE
  | HEIGHT
  | NORMALS
  | SHININESS
  | OPACITY
  | DISPLACEMENT
  | LIGHTMAP
  | REFLECTION
  | UNKNOWN
deriving DecidableEq, Repr

/-- A material: for each slot the texture paths it holds, in index order
(`GetTextureCount(type)` is the length, `GetTexture(type, i, &str)` the entry `i`).
A path is the C string `str.C_Str()`. -/
structure aiMaterial where
  textures : aiTextureType → List String

/-- A face: its vertex indices in stored order. -/
structure aiFace where
  mIndices : List Nat
deriving DecidableEq, Repr

/-- A source mesh. `mNormals` and `mTextureCoords0` are `none` for a null array. -/
structure aiMesh where
  mVertices : List Vec3
  mNormals : Option (List Vec3)
  mTextureCoords0 : Option (List Vec3)
  mFaces : List aiFace
  mMaterialIndex : Nat
deriving DecidableEq, Repr

/-- A node of the hierarchy: indices into the scene's mesh array, then the children. -/
inductive aiNode where
  | mk (mMeshes : List Nat) (mChildren : List aiNode)

/-- The mesh references of a node. -/
def aiNode.mMeshes : aiNode → List Nat
  | .mk ms _ => ms

/-- The children of a node. -/
def aiNode.mChildren : aiNode → List aiNode
  | .mk _ cs => cs

/-- The imported scene. -/
structure aiScene where
  mFlags : Nat
  mRootNode : Option aiNode
  mMeshes : List aiMesh
  mMaterials : List aiMaterial

/-- The flag `AI_SCENE_FLAGS_INCOMPLETE`. -/
def AI_SCENE_FLAGS_INCOMPLETE : Nat := 1

/-! ## The outside world -/

/-- What `stbi_load` reports for a decoded image. -/
structure Image where
  width : Int
  height : Int
  nrComponents : Int
deriving DecidableEq, Repr

/-- The answers of the external collaborators. -/
structure Env where
  /-- The result of `importer.ReadFile(path, ...)`: the scene pointer (`none` when null). -/
  ReadFile : String → Option aiScene
  /-- The text of `importer.GetErrorString()` after reading `path`. -/
  GetErrorString : String → String
  /-- The result of `stbi_load(filename, ...)`: `none` when it returns null. -/
  stbi_load : String → Option Image
  /-- The name written by the `k`-th call of `glGenTextures`. -/
  genTexture : Nat → Nat
  /-- The name written by the `k`-th call of `glGenBuffers`. -/
  genBuffer : Nat → Nat
  /-- The name written by the `k`-th call of `glGenVertexArrays`. -/
  genVertexArray : Nat → Nat
  /-- The value found in the local `GLenum format` of `TextureFromFile` when no branch
  assigns it. -/
  staleFormat : Nat

def GL_RED : Nat := 0x1903
def GL_RGB : Nat := 0x1907
def GL_RGBA : Nat := 0x1908
def GL_TEXTURE_2D : Nat := 0x0DE1
def GL_TEXTURE_WRAP_S : Nat := 0x2802
def GL_TEXTURE_WRAP_T : Nat := 0x2803
def GL_TEXTURE_MIN_FILTER : Nat := 0x2801
def GL_TEXTURE_MAG_FILTER : Nat := 0x2800
def GL_CLAMP_TO_EDGE : Nat := 0x812F
def GL_REPEAT : Nat := 0x2901
def GL_LINEAR : Nat := 0x2601
def GL_LINEAR_MIPMAP_LINEAR : Nat := 0x2703
def GL_UNSIGNED_BYTE : Nat := 0x1401
def GL_UNSIGNED_INT : Nat := 0x1405
def GL_FLOAT : Nat := 0x1406
def GL_FALSE : Nat := 0
def GL_TRIANGLES : Nat := 0x0004
def GL_ARRAY_BUFFER : Nat := 0x8892
def GL_ELEMENT_ARRAY_BUFFER : Nat := 0x8893
def GL_STATIC_DRAW : Nat := 0x88E4
def GL_TEXTURE0 : Nat := 0x84C0

/-- One call made by the program to the OpenGL context or to the shader binding, with the
values of the arguments the program passes (pointers to client memory are left out). -/
inductive GLCall where
  | GenTextures (name : Nat)
  | GenBuffers (name : Nat)
  | GenVertexArrays (name : Nat)
  | BindTexture (target : Nat) (texture : Nat)
  | TexImage2D (target : Nat) (level : Int) (internalformat : Nat) (width : Int) (height : Int)
      (border : Int) (format : Nat) (type : Nat)
  | GenerateMipmap (target : Nat)
  | TexParameteri (target : Nat) (pname : Nat) (param : Nat)
  | ActiveTexture (texture : Nat)
  | BindVertexArray (array : Nat)
  | BindBuffer (target : Nat) (buffer : Nat)
  | BufferData (target : Nat) (size : Nat) (usage : Nat)
  | EnableVertexAttribArray (index : Nat)
  | VertexAttribPointer (index : Nat) (size : Nat) (type : Nat) (normalized : Nat)
      (stride : Nat) (pointer : Nat)
  | VertexAttribDivisor (index : Nat) (divisor : Nat)
  | DrawElementsInstanced (mode : Nat) (count : Int) (type : Nat) (indices : Nat)
      (instancecount : Int)
  | ShaderSet (program : Nat) (name : String) (value : Int)
deriving DecidableEq, Repr

/-- The trace of the program's effects on the outside. -/
structure World where
  /-- The OpenGL and shader calls made so far, oldest first. -/
  gl : List GLCall
  /-- The lines written to `std::cerr`, oldest first. -/
  cerr : List String
  /-- The file names passed to `stbi_load`, oldest first. -/
  decoded : List String
  /-- The number of `glGenTextures` calls made so far. -/
  nTextures : Nat
  /-- The number of `glGenBuffers` calls made so far. -/
  nBuffers : Nat
  /-- The number of `glGenVertexArrays` calls made so far. -/
  nVertexArrays : Nat
deriving DecidableEq, Repr

/-- A world in which nothing has happened yet. -/
def World.empty : World := ⟨[], [], [], 0, 0, 0⟩

/-- Append calls to the trace. -/
def World.emit (w : World) (cs : List GLCall) : World :=
  { w with gl := w.gl ++ cs }

/-- Write one line to `std::cerr`. -/
def World.log (w : World) (line : String) : World :=
  { w with cerr := w.cerr ++ [line] }

/-- The call `glGenTextures(1, &id)`. -/
def glGenTextures (env : Env) (w : World) : Nat × World :=
  let name := env.genTexture w.nTextures
  (name, { w with gl := w.gl ++ [GLCall.GenTextures name], nTextures := w.nTextures + 1 })

/-- The call `glGenBuffers(1, &id)`. -/
def glGenBuffers (env : Env) (w : World) : Nat × World :=
  let name := env.genBuffer w.nBuffers
  (name, { w with gl := w.gl ++ [GLCall.GenBuffers name], nBuffers := w.nBuffers + 1 })

/-- The call `glGenVertexArrays(1, &id)`. -/
def glGenVertexArrays (env : Env) (w : World) : Nat × World :=
  let name := env.genVertexArray w.nVertexArrays
  (name, { w with gl := w.gl ++ [GLCall.GenVertexArrays name],
                  nVertexArrays := w.nVertexArrays + 1 })

/-- The call `stbi_load(filename, ...)`. -/
def stbi_load (env : Env) (filename : String) (w : World) : Option Image × World :=
  (env.stbi_load filename, { w with decoded := w.decoded ++ [filename] })

/-! ## Texture cache (`model.cpp`) -/

/-- The branch of `TextureFromFile` that assigns the local `GLenum format` from
`nrComponents`; when no branch applies the variable keeps the value it happened to have. -/
def uploadFormat (env : Env) (img : Image) : Nat :=
  if img.nrComponents = 1 then GL_RED
  else if img.nrComponents = 3 then GL_RGB
  else if img.nrComponents = 4 then GL_RGBA
  else env.staleFormat

/-- The function `TextureFromFile(path, directory, gamma)` of `model.cpp`. -/
def TextureFromFile (env : Env) (path : String) (directory : String) (w : World) :
    Nat × World :=
  let filename := directory ++ "/" ++ path
  let (textureID, w) := glGenTextures env w
  let (data, w) := stbi_load env filename w
  match data with
  | some img =>
    let format := uploadFormat env img
    let w := w.emit [GLCall.BindTexture GL_TEXTURE_2D textureID,
      GLCall.TexImage2D GL_TEXTURE_2D 0 format img.width img.height 0 format GL_UNSIGNED_BYTE,
      GLCall.GenerateMipmap GL_TEXTURE_2D]
    let w :=
      if format = GL_RGBA then
        w.emit [GLCall.TexParameteri GL_TEXTURE_2D GL_TEXTURE_WRAP_S GL_CLAMP_TO_EDGE,
                GLCall.TexParameteri GL_TEXTURE_2D GL_TEXTURE_WRAP_T GL_CLAMP_TO_EDGE]
      else
        w.emit [GLCall.TexParameteri GL_TEXTURE_2D GL_TEXTURE_WRAP_S GL_REPEAT,
                GLCall.TexParameteri GL_TEXTURE_2D GL_TEXTURE_WRAP_T GL_REPEAT]
    let w := w.emit [
      GLCall.TexParameteri GL_TEXTURE_2D GL_TEXTURE_MIN_FILTER GL_LINEAR_MIPMAP_LINEAR,
      GLCall.TexParameteri GL_TEXTURE_2D GL_TEXTURE_MAG_FILTER GL_LINEAR]
    (textureID, w)
  | none =>
    (textureID, w.log ("Texture failed to load at path: " ++ path))

/-- The data members of `class Model` (`model.hpp`). -/
structure Model where
  textures_loaded : List Texture
  meshes : List Mesh
  matrices : List Mat4
  directory : String
  gammaCorrection : Bool
deriving DecidableEq, Repr

/-- The inner loop of `Model::loadMaterialTextures`: the first record of `textures_loaded`
whose path compares equal (`strcmp(...) == 0`) to `str`, if there is one. -/
def findLoaded : List Texture → String → Option Texture
  | [], _ => none
  | t :: rest, str => if t.path = str then some t else findLoaded rest str

/-- The outer loop of `Model::loadMaterialTextures` over the paths of one slot;
`textures` is the local vector built so far. -/
def Model.loadTextureLoop (env : Env) (typeName : String) :
    List String → List Texture → Model → World → List Texture × Model × World
  | [], textures, m, w => (textures, m, w)
  | str :: rest, textures, m, w =>
    match findLoaded m.textures_loaded str with
    | some loaded => Model.loadTextureLoop env typeName rest (textures ++ [loaded]) m w
    | none =>
      let (id, w) := TextureFromFile env str m.directory w
      let texture : Texture := { id := id, type := typeName, path := str }
      Model.loadTextureLoop env typeName rest (textures ++ [texture])
        { m with textures_loaded := m.textures_loaded ++ [texture] } w

/-- The method `Model::loadMaterialTextures(mat, type, typeName)`. -/
def Model.loadMaterialTextures (env : Env) (mat : aiMaterial) (type : aiTextureType)
    (typeName : String) (m : Model) (w : World) : List Texture × Model × World :=
  Model.loadTextureLoop env typeName (mat.textures type) [] m w

/-! ## Mesh entity (`mesh.cpp`) -/

/-- The method `Mesh::setupMesh()`. -/
def Mesh.setupMesh (env : Env) (self : Mesh) (w : World) : Mesh × World :=
  let (VAO, w) := glGenVertexArrays env w
  let w := w.emit [GLCall.BindVertexArray VAO]
  let (VBO, w) := glGenBuffers env w
  let w := w.emit [GLCall.BindBuffer GL_ARRAY_BUFFER VBO,
    GLCall.BufferData GL_ARRAY_BUFFER (self.vertices.length * sizeof_Vertex) GL_STATIC_DRAW]
  let (EBO, w) := glGenBuffers env w
  let w := w.emit [GLCall.BindBuffer GL_ELEMENT_ARRAY_BUFFER EBO,
    GLCall.BufferData GL_ELEMENT_ARRAY_BUFFER (self.indices.length * sizeof_unsigned_int)
      GL_STATIC_DRAW,
    GLCall.EnableVertexAttribArray 0,
    GLCall.VertexAttribPointer 0 3 GL_FLOAT GL_FALSE sizeof_Vertex 0,
    GLCall.EnableVertexAttribArray 1,
    GLCall.VertexAttribPointer 1 3 GL_FLOAT GL_FALSE sizeof_Vertex offsetof_Vertex_Normal,
    GLCall.EnableVertexAttribArray 2,
    GLCall.VertexAttribPointer 2 2 GL_FLOAT GL_FALSE sizeof_Vertex offsetof_Vertex_TexCoords,
    GLCall.BindVertexArray 0]
  ({ self with VAO := VAO, VBO := VBO, EBO := EBO }, w)

/-- The constructor `Mesh::Mesh(vertices, indices, textures)`. -/
def Mesh.ctor (env : Env) (vertices : List Vertex) (indices : List Nat)
    (textures : List Texture) (w : World) : Mesh × World :=
  Mesh.setupMesh env
    { vertices := vertices, indices := indices, textures := textures,
      VAO := 0, VBO := 0, EBO := 0 } w

/-- The conversion of an `unsigned int` to `int` (`static_cast<int>`). -/
def toInt32 (n : Nat) : Int :=
  if n % 4294967296 < 2147483648 then ((n % 4294967296 : Nat) : Int)
  else ((n % 4294967296 : Nat) : Int) - 4294967296

/-- The conversion of a `size_t` to `unsigned int`. -/
def toUInt32 (n : Nat) : Nat := n % 4294967296

/-- The four counters of `Mesh::Draw`. -/
structure DrawCounters where
  diffuseNr : Nat
  specularNr : Nat
  normalNr : Nat
  heightNr : Nat
deriving DecidableEq, Repr

/-- The branch of `Mesh::Draw` that picks `number` for the role `name` and increments
the counter of that role (`std::to_string(diffuseNr++)` and its siblings); for any other
name `number` stays empty. -/
def nextNumber (name : String) (c : DrawCounters) : String × DrawCounters :=
  if name = "texture_diffuse" then (toString c.diffuseNr, { c with diffuseNr := c.diffuseNr + 1 })
  else if name = "texture_specular" then
    (toString c.specularNr, { c with specularNr := c.specularNr + 1 })
  else if name = "texture_normal" then (toString c.normalNr, { c with normalNr := c.normalNr + 1 })
  else if name = "texture_height" then (toString c.heightNr, { c with heightNr := c.heightNr + 1 })
  else ("", c)

/-- Modelled from the spec: the shader binding of `shader.hpp`, an object on which a named
uniform can be set. -/
structure Shader where
  ID : Nat
deriving DecidableEq, Repr

/-- The texture loop of `Mesh::Draw`, at position `i` with the textures from `i` on. -/
def Mesh.drawTextures (shader : Shader) : List Texture → Nat → DrawCounters → World → World
  | [], _, _, w => w
  | t :: rest, i, c, w =>
    let w := w.emit [GLCall.ActiveTexture ((GL_TEXTURE0 + i) % 4294967296)]
    let name := t.type
    let (number, c) := nextNumber name c
    let w := w.emit [GLCall.ShaderSet shader.ID ("material." ++ name ++ number) (toInt32 i),
                     GLCall.BindTexture GL_TEXTURE_2D t.id]
    Mesh.drawTextures shader rest (i + 1) c w

/-- The method `Mesh::Draw(shader, amount)`; `amount` is the value of the `unsigned int`
parameter. The parameters `count` and `instancecount` of `glDrawElementsInstanced` have the
type `GLsizei`, a signed 32-bit integer: `static_cast<unsigned int>(indices.size())` and
`amount` are converted to it at the call. -/
def Mesh.Draw (self : Mesh) (shader : Shader) (amount : Nat) (w : World) : World :=
  let w := Mesh.drawTextures shader self.textures 0 ⟨1, 1, 1, 1⟩ w
  w.emit [GLCall.BindVertexArray self.VAO,
    GLCall.DrawElementsInstanced GL_TRIANGLES (toInt32 (toUInt32 self.indices.length))
      GL_UNSIGNED_INT 0 (toInt32 amount),
    GLCall.BindVertexArray 0,
    GLCall.ActiveTexture GL_TEXTURE0]

/-! ## Scene flattener (`model.cpp`) -/

/-- The body of the vertex loop of `Model::processMesh` at index `i`. -/
def processVertex (mesh : aiMesh) (i : Nat) : Option Vertex :=
  match mesh.mVertices[i]? with
  | none => none
  | some p =>
    let position : Vec3 := { x := p.x, y := p.y, z := p.z }
    let normal : Option (Option Vec3) :=
      match mesh.mNormals with
      | some ns => (ns[i]?).map (fun n => some { x := n.x, y := n.y, z := n.z })
      | none => some none
    let texCoords : Option Vec2 :=
      match mesh.mTextureCoords0 with
      | some ts => (ts[i]?).map (fun t => { x := t.x, y := t.y })
      | none => some { x := 0, y := 0 }
    match normal, texCoords with
    | some n, some t => some { Position := position, Normal := n, TexCoords := t }
    | _, _ => none

/-- The vertex loop of `Model::processMesh`: indices `i`, `i + 1`, ... for `n` more rounds,
pushing onto `vertices`. -/
def processVertices (mesh : aiMesh) : Nat → Nat → List Vertex → Option (List Vertex)
  | 0, _, vertices => some vertices
  | n + 1, i, vertices =>
    match processVertex mesh i with
    | none => none
    | some v => processVertices mesh n (i + 1) (vertices ++ [v])

/-- The inner index loop of `Model::processMesh`: push the indices of one face. -/
def pushFaceIndices : List Nat → List Nat → List Nat
  | [], indices => indices
  | idx :: rest, indices => pushFaceIndices rest (indices ++ [idx])

/-- The face loop of `Model::processMesh`. -/
def processFaces : List aiFace → List Nat → List Nat
  | [], indices => indices
  | face :: rest, indices => processFaces rest (pushFaceIndices face.mIndices indices)

/-- The method `Model::processMesh(mesh, scene)`; the model is passed along because the
texture cache `textures_loaded` is updated. -/
def Model.processMesh (env : Env) (scene : aiScene) (mesh : aiMesh) (m : Model) (w : World) :
    Option (Mesh × Model × World) :=
  match processVertices mesh mesh.mVertices.length 0 [] with
  | none => none
  | some vertices =>
    let indices := processFaces mesh.mFaces []
    match scene.mMaterials[mesh.mMaterialIndex]? with
    | none => none
    | some material =>
      let textures : List Texture := []
      let (diffuseMaps, m, w) :=
        Model.loadMaterialTextures env material aiTextureType.DIFFUSE "texture_diffuse" m w
      let textures := textures ++ diffuseMaps
      let (specularMaps, m, w) :=
        Model.loadMaterialTextures env material aiTextureType.SPECULAR "texture_specular" m w
      let textures := textures ++ specularMaps
      let (normalMaps, m, w) :=
        Model.loadMaterialTextures env material aiTextureType.HEIGHT "texture_normal" m w
      let textures := textures ++ normalMaps
      let (heightMaps, m, w) :=
        Model.loadMaterialTextures env material aiTextureType.AMBIENT "texture_height" m w
      let textures := textures ++ heightMaps
      let (mesh, w) := Mesh.ctor env vertices indices textures w
      some (mesh, m, w)

/-- The first loop of `Model::processNode`: the node's own mesh references. -/
def Model.processNodeMeshes (env : Env) (scene : aiScene) :
    List Nat → Model → World → Option (Model × World)
  | [], m, w => some (m, w)
  | idx :: rest, m, w =>
    match scene.mMeshes[idx]? with
    | none => none
    | some mesh =>
      match Model.processMesh env scene mesh m w with
      | none => none
      | some (built, m, w) =>
        Model.processNodeMeshes env scene rest { m with meshes := m.meshes ++ [built] } w

mutual
/-- The method `Model::processNode(node, scene)`. -/
def Model.processNode (env : Env) (scene : aiScene) :
    aiNode → Model → World → Option (Model × World)
  | .mk ms cs, m, w =>
    match Model.processNodeMeshes env scene ms m w with
    | none => none
    | some (m, w) => Model.processChildren env scene cs m w
/-- The second loop of `Model::processNode`: the recursive calls on the children. -/
def Model.processChildren (env : Env) (scene : aiScene) :
    List aiNode → Model → World → Option (Model × World)
  | [], m, w => some (m, w)
  | c :: rest, m, w =>
    match Model.processNode env scene c m w with
    | none => none
    | some (m, w) => Model.processChildren env scene rest m w
end

/-- The position `path.find_last_of(c)`, or `none` for `npos`. -/
def find_last_of (s : List Char) (c : Char) : Option Nat :=
  if c ∈ s then some (s.length - 1 - s.reverse.indexOf c) else none

/-- The prefix `path.substr(0, n)`, with `none` standing for `npos`. -/
def substr0 (s : List Char) (n : Option Nat) : List Char :=
  match n with
  | none => s
  | some k => s.take k

/-- The value `path.substr(0, path.find_last_of('/'))` that `Model::loadModel` stores in
`directory`. -/
def directoryOf (path : String) : String :=
  String.mk (substr0 path.data (find_last_of path.data '/'))

/-- The method `Model::loadModel(path)`. -/
def Model.loadModel (env : Env) (path : String) (m : Model) (w : World) :
    Option (Model × World) :=
  match env.ReadFile path with
  | none => some (m, w.log ("ERROR::ASSIMP::" ++ env.GetErrorString path))
  | some scene =>
    if scene.mFlags &&& AI_SCENE_FLAGS_INCOMPLETE ≠ 0 then
      some (m, w.log ("ERROR::ASSIMP::" ++ env.GetErrorString path))
    else
      match scene.mRootNode with
      | none => some (m, w.log ("ERROR::ASSIMP::" ++ env.GetErrorString path))
      | some root =>
        let m := { m with directory := directoryOf path }
        Model.processNode env scene root m w

/-- The calls of one round of the mesh loop of `Model::loadInstances`. -/
def attachInstanceAttributes (VAO : Nat) : List GLCall :=
  [GLCall.BindVertexArray VAO,
   GLCall.EnableVertexAttribArray 3,
   GLCall.VertexAttribPointer 3 4 GL_FLOAT GL_FALSE sizeof_mat4 0,
   GLCall.EnableVertexAttribArray 4,
   GLCall.VertexAttribPointer 4 4 GL_FLOAT GL_FALSE sizeof_mat4 sizeof_vec4,
   GLCall.EnableVertexAttribArray 5,
   GLCall.VertexAttribPointer 5 4 GL_FLOAT GL_FALSE sizeof_mat4 (2 * sizeof_vec4),
   GLCall.EnableVertexAttribArray 6,
   GLCall.VertexAttribPointer 6 4 GL_FLOAT GL_FALSE sizeof_mat4 (3 * sizeof_vec4),
   GLCall.VertexAttribDivisor 3 1,
   GLCall.VertexAttribDivisor 4 1,
   GLCall.VertexAttribDivisor 5 1,
   GLCall.VertexAttribDivisor 6 1,
   GLCall.BindVertexArray 0]

/-- The mesh loop of `Model::loadInstances`. -/
def Model.attachLoop : List Mesh → World → World
  | [], w => w
  | mesh :: rest, w => Model.attachLoop rest (w.emit (attachInstanceAttributes mesh.VAO))

/-- The method `Model::loadInstances()`. The byte count `matrices.size() * sizeof(glm::mat4)`
is the size of the vector's own storage, so the `size_t` product does not wrap. -/
def Model.loadInstances (env : Env) (m : Model) (w : World) : World :=
  let (instanceBuffer, w) := glGenBuffers env w
  let w := w.emit [GLCall.BindBuffer GL_ARRAY_BUFFER instanceBuffer,
    GLCall.BufferData GL_ARRAY_BUFFER (m.matrices.length * sizeof_mat4) GL_STATIC_DRAW]
  Model.attachLoop m.meshes w

/-- The members of a `Model` when the body of `Model::Model` starts: the vectors and the
string are empty, `gammaCorrection` is initialised from `gamma`, and the first statement has
copied `matrices`. -/
def Model.initial (matrices : List Mat4) (gamma : Bool) : Model :=
  { textures_loaded := [], meshes := [], matrices := matrices, directory := "",
    gammaCorrection := gamma }

/-- The constructor `Model::Model(path, matrices, gamma)`. -/
def Model.ctor (env : Env) (path : String) (matrices : List Mat4) (gamma : Bool) (w : World) :
    Option (Model × World) :=
  match Model.loadModel env path (Model.initial matrices gamma) w with
  | none => none
  | some (m, w) => some (m, Model.loadInstances env m w)

/-- The loop of `Model::Draw`. -/
def Model.drawLoop (shader : Shader) (amount : Nat) : List Mesh → World → World
  | [], w => w
  | mesh :: rest, w => Model.drawLoop shader amount rest (Mesh.Draw mesh shader amount w)

/-- The method `Model::Draw(shader)`: `matrices.size()` is converted to the `unsigned int`
parameter `amount` of `Mesh::Draw` at each call. -/
def Model.Draw (m : Model) (shader : Shader) (w : World) : World :=
  Model.drawLoop shader (toUInt32 m.matrices.length) m.meshes w

/-! ## Vocabulary of the statements -/

mutual
/-- The mesh references of a hierarchy in depth-first pre-order: a node's own references
in stored order, then each child subtree in child order. -/
def aiNode.preorder : aiNode → List Nat
  | .mk ms cs => ms ++ aiNode.preorderList cs
/-- The pre-order references of a list of sibling subtrees. -/
def aiNode.preorderList : List aiNode → List Nat
  | [] => []
  | c :: rest => c.preorder ++ aiNode.preorderList rest
end

/-- A source mesh is well formed in its scene: its material index is in range and the
normal and texture-coordinate arrays, when present, cover every vertex. -/
def aiMesh.valid (scene : aiScene) (mesh : aiMesh) : Bool :=
  decide (mesh.mMaterialIndex < scene.mMaterials.length)
  && (match mesh.mNormals with
      | some ns => decide (mesh.mVertices.length ≤ ns.length)
      | none => true)
  && (match mesh.mTextureCoords0 with
      | some ts => decide (mesh.mVertices.length ≤ ts.length)
      | none => true)

/-- A mesh reference is well formed: it is in range and names a well-formed mesh. -/
def aiScene.validRef (scene : aiScene) (idx : Nat) : Bool :=
  match scene.mMeshes[idx]? with
  | some mesh => mesh.valid scene
  | none => false

/-- A valid asset: every mesh reference of the hierarchy under `root` is well formed. -/
def aiScene.valid (scene : aiScene) (root : aiNode) : Bool :=
  root.preorder.all scene.validRef

/-- The texture paths `Model::processMesh` asks the cache for, in the order it asks. -/
def aiMaterial.loadedPaths (mat : aiMaterial) : List String :=
  mat.textures aiTextureType.DIFFUSE ++ mat.textures aiTextureType.SPECULAR
    ++ mat.textures aiTextureType.HEIGHT ++ mat.textures aiTextureType.AMBIENT

/-- The reading of the specification by role name: the slot "corresponding" to each of the
roles diffuse, specular, normal, height is the slot of the same name. -/
def aiMaterial.specRolePaths (mat : aiMaterial) : List String :=
  mat.textures aiTextureType.DIFFUSE ++ mat.textures aiTextureType.SPECULAR
    ++ mat.textures aiTextureType.NORMALS ++ mat.textures aiTextureType.HEIGHT

/-- The instanced draw calls of a trace. -/
def drawCalls (cs : List GLCall) : List GLCall :=
  cs.filter (fun c => match c with
    | GLCall.DrawElementsInstanced _ _ _ _ _ => true
    | _ => false)

/-- The buffer uploads of a trace. -/
def bufferUploads (cs : List GLCall) : List GLCall :=
  cs.filter (fun c => match c with
    | GLCall.BufferData _ _ _ => true
    | _ => false)

/-- The buffer bindings of a trace. -/
def bufferBinds (cs : List GLCall) : List GLCall :=
  cs.filter (fun c => match c with
    | GLCall.BindBuffer _ _ => true
    | _ => false)

/-- The vertex-attribute slot a call configures, if it configures one. -/
def GLCall.attribSlot : GLCall → Option Nat
  | GLCall.EnableVertexAttribArray i => some i
  | GLCall.VertexAttribPointer i _ _ _ _ _ => some i
  | GLCall.VertexAttribDivisor i _ => some i
  | _ => none

/-- The four role names of `Mesh::Draw`. -/
def isRole (name : String) : Prop :=
  name = "texture_diffuse" ∨ name = "texture_specular" ∨ name = "texture_normal"
    ∨ name = "texture_height"

/-- The counter `Mesh::Draw` keeps for a role name (0 for any other name). -/
def DrawCounters.get (c : DrawCounters) (name : String) : Nat :=
  if name = "texture_diffuse" then c.diffuseNr
  else if name = "texture_specular" then c.specularNr
  else if name = "texture_normal" then c.normalNr
  else if name = "texture_height" then c.heightNr
  else 0

/-- The calls made by the texture loop of `Mesh::Draw` from position `i` on. -/
def textureCalls (shader : Shader) : List Texture → Nat → DrawCounters → List GLCall
  | [], _, _ => []
  | t :: rest, i, c =>
    [GLCall.ActiveTexture ((GL_TEXTURE0 + i) % 4294967296),
     GLCall.ShaderSet shader.ID ("material." ++ t.type ++ (nextNumber t.type c).1) (toInt32 i),
     GLCall.BindTexture GL_TEXTURE_2D t.id]
      ++ textureCalls shader rest (i + 1) (nextNumber t.type c).2

/-- The uniform names set on the shader binding in a trace, in order. -/
def samplerNames (cs : List GLCall) : List String :=
  cs.filterMap (fun c => match c with
    | GLCall.ShaderSet _ name _ => some name
    | _ => none)

/-- The line `TextureFromFile` writes to `std::cerr` when the image is not decoded. -/
def loadFailure (path : String) : String := "Texture failed to load at path: " ++ path

/-- The line `Model::loadModel` writes to `std::cerr` when the import fails. -/
def importFailure (env : Env) (path : String) : String :=
  "ERROR::ASSIMP::" ++ env.GetErrorString path

/-- The mesh entity `built` is what `Model::processMesh` makes of the scene mesh with index
`idx`: its vertices and indices are those of the source mesh and its textures are the
records for the paths the material holds in the slots that are read. -/
def Flattened (scene : aiScene) (idx : Nat) (built : Mesh) : Prop :=
  ∃ mesh mat, scene.mMeshes[idx]? = some mesh
    ∧ scene.mMaterials[mesh.mMaterialIndex]? = some mat
    ∧ processVertices mesh mesh.mVertices.length 0 [] = some built.vertices
    ∧ built.indices = mesh.mFaces.flatMap (fun face => face.mIndices)
    ∧ built.textures.map Texture.path = mat.loadedPaths

/-- The world `b` is a later state of the world `a`: the call trace, `std::cerr` and the
list of decoded files have only been appended to, and one texture name has been generated
for each file decoded since. -/
def World.Extends (a b : World) : Prop :=
  ∃ g e d, b.gl = a.gl ++ g ∧ b.cerr = a.cerr ++ e ∧ b.decoded = a.decoded ++ d
    ∧ b.nTextures = a.nTextures + d.length

/-- The state `(m', w')` continues `(m, w)`: the texture cache, the call trace and
`std::cerr` have only been appended to; the files decoded since are those of the added cache
records, in order, one texture name generated for each; the added records have distinct
paths, none of them cached before; and every added record `r` carries the value returned by
a call `TextureFromFile(r.path, directory)` made in a state `w0` between `w` and `w'`, with
the failure line for `r.path` among the appended lines when its image file is not decoded. -/
def Grows (env : Env) (m : Model) (w : World) (m' : Model) (w' : World) : Prop :=
  m'.matrices = m.matrices ∧ m'.directory = m.directory
    ∧ m'.gammaCorrection = m.gammaCorrection
    ∧ ∃ added g e, m'.textures_loaded = m.textures_loaded ++ added
        ∧ w'.gl = w.gl ++ g ∧ w'.cerr = w.cerr ++ e
        ∧ w'.decoded = w.decoded ++ added.map (fun r => m.directory ++ "/" ++ r.path)
        ∧ w'.nTextures = w.nTextures + added.length
        ∧ (added.map Texture.path).Nodup
        ∧ (∀ r ∈ added, r.path ∉ m.textures_loaded.map Texture.path)
        ∧ ∀ r ∈ added, GLCall.GenTextures r.id ∈ g
            ∧ (env.stbi_load (m.directory ++ "/" ++ r.path) = none → loadFailure r.path ∈ e)
            ∧ ∃ w0, World.Extends w w0
                ∧ r.id = (TextureFromFile env r.path m.directory w0).1
                ∧ World.Extends (TextureFromFile env r.path m.directory w0).2 w'

/-- One call `loadMaterialTextures(mat, type, typeName)`. -/
structure LoadCall where
  mat : aiMaterial
  type : aiTextureType
  typeName : String

/-- A sequence of `Model::loadMaterialTextures` calls, each made on the state the previous
one left; the vectors the calls return are dropped. -/
def Model.loadCalls (env : Env) : List LoadCall → Model → World → Model × World
  | [], m, w => (m, w)
  | c :: rest, m, w =>
    Model.loadCalls env rest
      (Model.loadMaterialTextures env c.mat c.type c.typeName m w).2.1
      (Model.loadMaterialTextures env c.mat c.type c.typeName m w).2.2

/-- The texture paths a sequence of calls requests, in the order they are requested. -/
def requestedPaths (calls : List LoadCall) : List String :=
  calls.flatMap (fun c => c.mat.textures c.type)

/-- The distinct paths of a list of requests, in order of first request: each path is kept
where it occurs first and dropped wherever it occurs again. -/
def firstRequested : List String → List String
  | [] => []
  | p :: rest => p :: (firstRequested rest).filter (fun q => q ≠ p)

/-- The role name under which a path is first requested by a sequence of calls, if it is
requested at all. -/
def firstRole : List LoadCall → String → Option String
  | [], _ => none
  | c :: rest, p => if p ∈ c.mat.textures c.type then some c.typeName else firstRole rest p

/-! ## Sample inputs -/

/-- A decoder that knows one RGB image and one RGBA image. -/
def sampleEnv (scene : Option aiScene) : Env where
  ReadFile := fun _ => scene
  GetErrorString := fun _ => "Unable to open file."
  stbi_load := fun f =>
    if f = "assets/wood.png" then some ⟨4, 4, 3⟩
    else if f = "assets/leaf.png" then some ⟨2, 2, 4⟩
    else none
  genTexture := fun k => k + 1
  genBuffer := fun k => k + 1
  genVertexArray := fun k => k + 1
  staleFormat := 0

/-- A triangle with a normal array and no texture coordinates, using material 0. -/
def sampleMesh : aiMesh where
  mVertices := [⟨0, 0, 0⟩, ⟨1, 0, 0⟩, ⟨0, 1, 0⟩]
  mNormals := some [⟨0, 0, 1⟩, ⟨0, 0, 1⟩, ⟨0, 0, 1⟩]
  mTextureCoords0 := none
  mFaces := [⟨[0, 1, 2]⟩]
  mMaterialIndex := 0

/-- A material with one diffuse texture. -/
def sampleMaterial : aiMaterial where
  textures := fun t => match t with
    | aiTextureType.DIFFUSE => ["wood.png"]
    | _ => []

/-- A material that references a normal map in the slot `aiTextureType_NORMALS` only;
no such file exists for `sampleEnv`. -/
def normalsOnlyMaterial : aiMaterial where
  textures := fun t => match t with
    | aiTextureType.NORMALS => ["bump.png"]
    | _ => []

/-- A material whose diffuse texture file does not exist for `sampleEnv`. -/
def missingDiffuseMaterial : aiMaterial where
  textures := fun t => match t with
    | aiTextureType.DIFFUSE => ["gone.png"]
    | _ => []

/-- A material that holds one texture in the slot `aiTextureType_HEIGHT` only. -/
def heightOnlyMaterial : aiMaterial where
  textures := fun t => match t with
    | aiTextureType.HEIGHT => ["wood.png"]
    | _ => []

/-- A material that holds the same file as its diffuse and as its specular texture. -/
def sharedTextureMaterial : aiMaterial where
  textures := fun t => match t with
    | aiTextureType.DIFFUSE => ["wood.png"]
    | aiTextureType.SPECULAR => ["wood.png"]
    | _ => []

/-- Three calls: `wood.png` as diffuse texture, `wood.png` again as specular texture, then
`gone.png` as height texture. -/
def sampleCalls : List LoadCall :=
  [⟨sharedTextureMaterial, aiTextureType.DIFFUSE, "texture_diffuse"⟩,
   ⟨sharedTextureMaterial, aiTextureType.SPECULAR, "texture_specular"⟩,
   ⟨missingDiffuseMaterial, aiTextureType.DIFFUSE, "texture_height"⟩]

/-- One mesh, referenced by the root and once more by its only child. -/
def sharedMeshScene : aiScene where
  mFlags := 0
  mRootNode := some (aiNode.mk [0] [aiNode.mk [0] []])
  mMeshes := [sampleMesh]
  mMaterials := [sampleMaterial]

/-- One mesh with `sampleMaterial`, referenced once, in a scene that also holds the material
`missingDiffuseMaterial`, which no mesh uses. -/
def unusedMaterialScene : aiScene where
  mFlags := 0
  mRootNode := some (aiNode.mk [0] [])
  mMeshes := [sampleMesh]
  mMaterials := [sampleMaterial, missingDiffuseMaterial]

/-- One mesh, referenced once, by the root. -/
def singleMeshScene (mat : aiMaterial) : aiScene where
  mFlags := 0
  mRootNode := some (aiNode.mk [0] [])
  mMeshes := [sampleMesh]
  mMaterials := [mat]

/-- The cache record `sampleEnv` produces for the first texture it loads, `wood.png`. -/
def woodRecord : Texture := { id := 1, type := "texture_diffuse", path := "wood.png" }

/-- A model whose cache already holds `woodRecord`. -/
def cachedModel : Model :=
  { textures_loaded := [woodRecord], meshes := [], matrices := [], directory := "assets",
    gammaCorrection := false }

/-- A mesh entity with one triangle and no textures, whose vertex array has the name 1. -/
def sampleEntity : Mesh :=
  { vertices := [], indices := [0, 1, 2], textures := [], VAO := 1, VBO := 1, EBO := 2 }

/-- A model of one mesh entity with the given instance transforms. -/
def sampleModel (matrices : List Mat4) : Model :=
  { textures_loaded := [], meshes := [sampleEntity], matrices := matrices,
    directory := "assets", gammaCorrection := false }

/-- The identity matrix, `glm::mat4(1.0f)`. -/
def Mat4.identity : Mat4 :=
  ⟨⟨0x3F800000, 0, 0, 0⟩, ⟨0, 0x3F800000, 0, 0⟩, ⟨0, 0, 0x3F800000, 0⟩,
    ⟨0, 0, 0, 0x3F800000⟩⟩

/-! ## Traces -/

@[simp] theorem World.emit_gl (w : World) (cs : List GLCall) : (w.emit cs).gl = w.gl ++ cs := rfl
@[simp] theorem World.emit_cerr (w : World) (cs : List GLCall) : (w.emit cs).cerr = w.cerr := rfl
@[simp] theorem World.emit_decoded (w : World) (cs : List GLCall) :
    (w.emit cs).decoded = w.decoded := rfl
@[simp] theorem World.emit_nTextures (w : World) (cs : List GLCall) :
    (w.emit cs).nTextures = w.nTextures := rfl
@[simp] theorem World.emit_nBuffers (w : World) (cs : List GLCall) :
    (w.emit cs).nBuffers = w.nBuffers := rfl
@[simp] theorem World.emit_nVertexArrays (w : World) (cs : List GLCall) :
    (w.emit cs).nVertexArrays = w.nVertexArrays := rfl
@[simp] theorem World.log_gl (w : World) (s : String) : (w.log s).gl = w.gl := rfl
@[simp] theorem World.log_cerr (w : World) (s : String) : (w.log s).cerr = w.cerr ++ [s] := rfl
@[simp] theorem World.log_decoded (w : World) (s : String) : (w.log s).decoded = w.decoded := rfl
@[simp] theorem World.log_nTextures (w : World) (s : String) :
    (w.log s).nTextures = w.nTextures := rfl

/-! ## `TextureFromFile` -/

theorem TextureFromFile_none (env : Env) (path directory : String) (w : World)
    (h : env.stbi_load (directory ++ "/" ++ path) = none) :
    TextureFromFile env path directory w
      = (env.genTexture w.nTextures,
         { w with gl := w.gl ++ [GLCall.GenTextures (env.genTexture w.nTextures)],
                  cerr := w.cerr ++ [loadFailure path],
                  decoded := w.decoded ++ [directory ++ "/" ++ path],
                  nTextures := w.nTextures + 1 }) := by
  simp only [TextureFromFile, glGenTextures, stbi_load, h]
  rfl

theorem TextureFromFile_some (env : Env) (path directory : String) (w : World) (img : Image)
    (h : env.stbi_load (directory ++ "/" ++ path) = some img) :
    TextureFromFile env path directory w
      = (env.genTexture w.nTextures,
         { w with
           gl := w.gl ++ [GLCall.GenTextures (env.genTexture w.nTextures),
             GLCall.BindTexture GL_TEXTURE_2D (env.genTexture w.nTextures),
             GLCall.TexImage2D GL_TEXTURE_2D 0 (uploadFormat env img) img.width img.height 0
               (uploadFormat env img) GL_UNSIGNED_BYTE,
             GLCall.GenerateMipmap GL_TEXTURE_2D,
             GLCall.TexParameteri GL_TEXTURE_2D GL_TEXTURE_WRAP_S
               (if uploadFormat env img = GL_RGBA then GL_CLAMP_TO_EDGE else GL_REPEAT),
             GLCall.TexParameteri GL_TEXTURE_2D GL_TEXTURE_WRAP_T
               (if uploadFormat env img = GL_RGBA then GL_CLAMP_TO_EDGE else GL_REPEAT),
             GLCall.TexParameteri GL_TEXTURE_2D GL_TEXTURE_MIN_FILTER GL_LINEAR_MIPMAP_LINEAR,
             GLCall.TexParameteri GL_TEXTURE_2D GL_TEXTURE_MAG_FILTER GL_LINEAR],
           decoded := w.decoded ++ [directory ++ "/" ++ path],
           nTextures := w.nTextures + 1 }) := by
  simp only [TextureFromFile, glGenTextures, stbi_load, h]
  by_cases hf : uploadFormat env img = GL_RGBA
  · have hf2 := hf
    unfold uploadFormat at hf2
    simp [hf, hf2, World.emit]
  · have hf2 := hf
    unfold uploadFormat at hf2
    simp [hf, hf2, World.emit, uploadFormat]

theorem TextureFromFile_fst (env : Env) (path directory : String) (w : World) :
    (TextureFromFile env path directory w).1 = env.genTexture w.nTextures := by
  cases h : env.stbi_load (directory ++ "/" ++ path) with
  | none => rw [TextureFromFile_none env path directory w h]
  | some img => rw [TextureFromFile_some env path directory w img h]

theorem TextureFromFile_decoded (env : Env) (path directory : String) (w : World) :
    (TextureFromFile env path directory w).2.decoded = w.decoded ++ [directory ++ "/" ++ path] := by
  cases h : env.stbi_load (directory ++ "/" ++ path) with
  | none => rw [TextureFromFile_none env path directory w h]
  | some img => rw [TextureFromFile_some env path directory w img h]

theorem TextureFromFile_nTextures (env : Env) (path directory : String) (w : World) :
    (TextureFromFile env path directory w).2.nTextures = w.nTextures + 1 := by
  cases h : env.stbi_load (directory ++ "/" ++ path) with
  | none => rw [TextureFromFile_none env path directory w h]
  | some img => rw [TextureFromFile_some env path directory w img h]

theorem TextureFromFile_counters (env : Env) (path directory : String) (w : World) :
    (TextureFromFile env path directory w).2.nBuffers = w.nBuffers
      ∧ (TextureFromFile env path directory w).2.nVertexArrays = w.nVertexArrays := by
  cases h : env.stbi_load (directory ++ "/" ++ path) with
  | none => rw [TextureFromFile_none env path directory w h]; exact ⟨rfl, rfl⟩
  | some img => rw [TextureFromFile_some env path directory w img h]; exact ⟨rfl, rfl⟩

theorem TextureFromFile_gl (env : Env) (path directory : String) (w : World) :
    ∃ cs, (TextureFromFile env path directory w).2.gl
      = w.gl ++ GLCall.GenTextures (env.genTexture w.nTextures) :: cs := by
  cases h : env.stbi_load (directory ++ "/" ++ path) with
  | none => rw [TextureFromFile_none env path directory w h]; exact ⟨[], rfl⟩
  | some img => rw [TextureFromFile_some env path directory w img h]; exact ⟨_, rfl⟩

theorem TextureFromFile_cerr (env : Env) (path directory : String) (w : World) :
    (TextureFromFile env path directory w).2.cerr
      = w.cerr ++ (if env.stbi_load (directory ++ "/" ++ path) = none then [loadFailure path]
                   else []) := by
  cases h : env.stbi_load (directory ++ "/" ++ path) with
  | none => rw [TextureFromFile_none env path directory w h]; simp
  | some img => rw [TextureFromFile_some env path directory w img h]; simp

/-! ## The texture cache loop -/

theorem findLoaded_some {l : List Texture} {p : String} {r : Texture}
    (h : findLoaded l p = some r) : r ∈ l ∧ r.path = p := by
  induction l with
  | nil => simp [findLoaded] at h
  | cons t rest ih =>
    unfold findLoaded at h
    by_cases ht : t.path = p
    · simp [ht] at h
      subst h
      exact ⟨List.mem_cons_self _ _, ht⟩
    · simp [ht] at h
      exact ⟨List.mem_cons_of_mem _ (ih h).1, (ih h).2⟩

theorem findLoaded_eq_none {l : List Texture} {p : String} :
    findLoaded l p = none ↔ ∀ r ∈ l, r.path ≠ p := by
  induction l with
  | nil => simp [findLoaded]
  | cons t rest ih =>
    unfold findLoaded
    by_cases ht : t.path = p
    · simp [ht]
    · simp [ht, ih]

theorem findLoaded_append_self (l : List Texture) (t : Texture) (h : findLoaded l t.path = none) :
    findLoaded (l ++ [t]) t.path = some t := by
  induction l with
  | nil => simp [findLoaded]
  | cons u rest ih =>
    unfold findLoaded at h
    by_cases hu : u.path = t.path
    · simp [hu] at h
    · simp [hu] at h
      simp [findLoaded, hu, ih h]

theorem findLoaded_append_of_some (l l' : List Texture) (p : String) (r : Texture)
    (h : findLoaded l p = some r) : findLoaded (l ++ l') p = some r := by
  induction l with
  | nil => simp [findLoaded] at h
  | cons u rest ih =>
    unfold findLoaded at h
    by_cases hu : u.path = p
    · simp [hu] at h
      subst h
      simp [findLoaded, hu]
    · simp [hu] at h
      simp [findLoaded, hu, ih h]

theorem loadTextureLoop_acc (env : Env) (typeName : String) (ps : List String) :
    ∀ (acc : List Texture) (m : Model) (w : World),
      Model.loadTextureLoop env typeName ps acc m w
        = (acc ++ (Model.loadTextureLoop env typeName ps [] m w).1,
           (Model.loadTextureLoop env typeName ps [] m w).2) := by
  induction ps with
  | nil => intro acc m w; simp [Model.loadTextureLoop]
  | cons p rest ih =>
    intro acc m w
    unfold Model.loadTextureLoop
    cases hf : findLoaded m.textures_loaded p with
    | some r =>
      simp only []
      rw [ih (acc ++ [r]), ih ([] ++ [r])]
      simp
    | none =>
      simp only []
      rw [ih (acc ++ _), ih ([] ++ _)]
      simp

theorem loadTextureLoop_hit (env : Env) (typeName : String) (p : String) (rest : List String)
    (m : Model) (w : World) (r : Texture) (h : findLoaded m.textures_loaded p = some r) :
    Model.loadTextureLoop env typeName (p :: rest) [] m w
      = (r :: (Model.loadTextureLoop env typeName rest [] m w).1,
         (Model.loadTextureLoop env typeName rest [] m w).2) := by
  rw [Model.loadTextureLoop]
  simp only [h]
  rw [loadTextureLoop_acc]
  simp

theorem loadTextureLoop_miss (env : Env) (typeName : String) (p : String) (rest : List String)
    (m : Model) (w : World) (h : findLoaded m.textures_loaded p = none) :
    Model.loadTextureLoop env typeName (p :: rest) [] m w
      = (⟨(TextureFromFile env p m.directory w).1, typeName, p⟩
          :: (Model.loadTextureLoop env typeName rest []
                { m with textures_loaded := m.textures_loaded
                    ++ [⟨(TextureFromFile env p m.directory w).1, typeName, p⟩] }
                (TextureFromFile env p m.directory w).2).1,
         (Model.loadTextureLoop env typeName rest []
                { m with textures_loaded := m.textures_loaded
                    ++ [⟨(TextureFromFile env p m.directory w).1, typeName, p⟩] }
                (TextureFromFile env p m.directory w).2).2) := by
  rw [Model.loadTextureLoop]
  simp only [h]
  rw [loadTextureLoop_acc]
  simp

theorem World.extends_refl (w : World) : World.Extends w w :=
  ⟨[], [], [], by simp, by simp, by simp, by simp⟩

theorem World.extends_trans {a b c : World} (h₁ : World.Extends a b)
    (h₂ : World.Extends b c) : World.Extends a c := by
  obtain ⟨g1, e1, d1, hg1, he1, hd1, hn1⟩ := h₁
  obtain ⟨g2, e2, d2, hg2, he2, hd2, hn2⟩ := h₂
  refine ⟨g1 ++ g2, e1 ++ e2, d1 ++ d2, by rw [hg2, hg1, List.append_assoc],
    by rw [he2, he1, List.append_assoc], by rw [hd2, hd1, List.append_assoc], ?_⟩
  rw [hn2, hn1, List.length_append]; omega

theorem TextureFromFile_extends (env : Env) (path directory : String) (w : World) :
    World.Extends w (TextureFromFile env path directory w).2 := by
  obtain ⟨cs, hcs⟩ := TextureFromFile_gl env path directory w
  exact ⟨_, _, [directory ++ "/" ++ path], hcs, TextureFromFile_cerr env path directory w,
    TextureFromFile_decoded env path directory w,
    by rw [TextureFromFile_nTextures]; rfl⟩

theorem Grows.extends {env : Env} {m m' : Model} {w w' : World} (h : Grows env m w m' w') :
    World.Extends w w' := by
  obtain ⟨_, _, _, added, g, e, _, hg, he, hd, hn, _⟩ := h
  exact ⟨g, e, _, hg, he, hd, by rw [hn, List.length_map]⟩

theorem Grows.refl (env : Env) (m : Model) (w : World) : Grows env m w m w :=
  ⟨rfl, rfl, rfl, [], [], [], by simp, by simp, by simp, by simp, by simp, by simp, by simp,
    by simp⟩

theorem Grows.trans {env : Env} {m₁ m₂ m₃ : Model} {w₁ w₂ w₃ : World}
    (h₁ : Grows env m₁ w₁ m₂ w₂) (h₂ : Grows env m₂ w₂ m₃ w₃) :
    Grows env m₁ w₁ m₃ w₃ := by
  have x₁ := h₁.extends
  have x₂ := h₂.extends
  obtain ⟨a1, b1, c1, added1, g1, e1, hc1, hg1, he1, hd1, hn1, hu1, hf1, hr1⟩ := h₁
  obtain ⟨a2, b2, c2, added2, g2, e2, hc2, hg2, he2, hd2, hn2, hu2, hf2, hr2⟩ := h₂
  refine ⟨a2.trans a1, b2.trans b1, c2.trans c1, added1 ++ added2, g1 ++ g2, e1 ++ e2,
    by rw [hc2, hc1, List.append_assoc], by rw [hg2, hg1, List.append_assoc],
    by rw [he2, he1, List.append_assoc], ?_, ?_, ?_, ?_, ?_⟩
  · rw [hd2, hd1, b1, List.map_append, List.append_assoc]
  · rw [hn2, hn1, List.length_append]; omega
  · rw [List.map_append, List.nodup_append]
    refine ⟨hu1, hu2, ?_⟩
    intro x hx1 hx2
    obtain ⟨r, hr, hrx⟩ := List.mem_map.1 hx2
    apply hf2 r hr
    rw [hc1, List.map_append, hrx]
    exact List.mem_append_right _ hx1
  · intro r hr
    rcases List.mem_append.1 hr with hr | hr
    · exact hf1 r hr
    · intro hmem
      apply hf2 r hr
      rw [hc1, List.map_append]
      exact List.mem_append_left _ hmem
  · intro r hr
    rcases List.mem_append.1 hr with hr | hr
    · obtain ⟨p1, p2, w0, q1, q2, q3⟩ := hr1 r hr
      exact ⟨List.mem_append_left _ p1, fun hn => List.mem_append_left _ (p2 hn),
        w0, q1, q2, World.extends_trans q3 x₂⟩
    · obtain ⟨p1, p2, w0, q1, q2, q3⟩ := hr2 r hr
      rw [b1] at p2 q2 q3
      exact ⟨List.mem_append_right _ p1, fun hn => List.mem_append_right _ (p2 hn),
        w0, World.extends_trans x₁ q1, q2, q3⟩

theorem Grows.mem_cache {env : Env} {m m' : Model} {w w' : World} (h : Grows env m w m' w')
    {t : Texture} (ht : t ∈ m.textures_loaded) : t ∈ m'.textures_loaded := by
  obtain ⟨_, _, _, added, _, _, hc, _⟩ := h
  rw [hc]; exact List.mem_append_left _ ht

theorem Grows.world {env : Env} (m : Model) {w w' : World} (g : List GLCall)
    (hg : w'.gl = w.gl ++ g) (he : w'.cerr = w.cerr) (hd : w'.decoded = w.decoded)
    (hn : w'.nTextures = w.nTextures) : Grows env m w m w' :=
  ⟨rfl, rfl, rfl, [], g, [], by simp, hg, by simp [he], by simp [hd], by simp [hn],
    by simp, by simp, by simp⟩

theorem Grows.load (env : Env) (typeName p : String) (m : Model) (w : World)
    (hf : findLoaded m.textures_loaded p = none) :
    Grows env m w
      { m with textures_loaded := m.textures_loaded
          ++ [⟨(TextureFromFile env p m.directory w).1, typeName, p⟩] }
      (TextureFromFile env p m.directory w).2 := by
  obtain ⟨cs, hcs⟩ := TextureFromFile_gl env p m.directory w
  refine ⟨rfl, rfl, rfl, _, _, _, rfl, hcs, TextureFromFile_cerr env p m.directory w,
    TextureFromFile_decoded env p m.directory w, TextureFromFile_nTextures env p m.directory w,
    by simp, ?_, ?_⟩
  · intro r hr hmem
    simp only [List.mem_singleton] at hr
    subst hr
    obtain ⟨r', hr', hrp⟩ := List.mem_map.1 hmem
    exact findLoaded_eq_none.1 hf r' hr' hrp
  · intro r hr
    simp only [List.mem_singleton] at hr
    subst hr
    refine ⟨?_, fun hn => ?_, w, World.extends_refl w, rfl, World.extends_refl _⟩
    · rw [TextureFromFile_fst]; exact List.mem_cons_self _ _
    · simp only [] at hn
      simp [hn]

theorem loadTextureLoop_spec (env : Env) (typeName : String) (ps : List String) :
    ∀ (m : Model) (w : World),
      ((Model.loadTextureLoop env typeName ps [] m w).1.map Texture.path = ps)
      ∧ (∀ t ∈ (Model.loadTextureLoop env typeName ps [] m w).1,
          t ∈ (Model.loadTextureLoop env typeName ps [] m w).2.1.textures_loaded)
      ∧ (Model.loadTextureLoop env typeName ps [] m w).2.1.meshes = m.meshes
      ∧ Grows env m w (Model.loadTextureLoop env typeName ps [] m w).2.1
          (Model.loadTextureLoop env typeName ps [] m w).2.2 := by
  induction ps with
  | nil =>
    intro m w
    simp [Model.loadTextureLoop, Grows.refl]
  | cons p rest ih =>
    intro m w
    cases hf : findLoaded m.textures_loaded p with
    | some r =>
      rw [loadTextureLoop_hit env typeName p rest m w r hf]
      obtain ⟨h1, h2, h3, h4⟩ := ih m w
      refine ⟨by simp [h1, (findLoaded_some hf).2], ?_, h3, h4⟩
      intro t ht
      rcases List.mem_cons.1 ht with ht | ht
      · subst ht; exact h4.mem_cache (findLoaded_some hf).1
      · exact h2 t ht
    | none =>
      rw [loadTextureLoop_miss env typeName p rest m w hf]
      obtain ⟨h1, h2, h3, h4⟩ := ih
        { m with textures_loaded := m.textures_loaded
            ++ [⟨(TextureFromFile env p m.directory w).1, typeName, p⟩] }
        (TextureFromFile env p m.directory w).2
      refine ⟨by simp [h1], ?_, h3, (Grows.load env typeName p m w hf).trans h4⟩
      intro t ht
      rcases List.mem_cons.1 ht with ht | ht
      · subst ht; exact h4.mem_cache (by simp)
      · exact h2 t ht

/-! ## Geometry of one mesh -/

theorem pushFaceIndices_eq (idxs : List Nat) : ∀ acc : List Nat,
    pushFaceIndices idxs acc = acc ++ idxs := by
  induction idxs with
  | nil => intro acc; simp [pushFaceIndices]
  | cons i rest ih => intro acc; simp [pushFaceIndices, ih]

theorem processFaces_eq (faces : List aiFace) : ∀ acc : List Nat,
    processFaces faces acc = acc ++ faces.flatMap (fun face => face.mIndices) := by
  induction faces with
  | nil => intro acc; simp [processFaces]
  | cons f rest ih => intro acc; simp [processFaces, ih, pushFaceIndices_eq]

theorem processVertex_isSome (scene : aiScene) (mesh : aiMesh) (hv : mesh.valid scene = true)
    (i : Nat) (hi : i < mesh.mVertices.length) : ∃ v, processVertex mesh i = some v := by
  unfold aiMesh.valid at hv
  simp only [Bool.and_eq_true, decide_eq_true_eq] at hv
  obtain ⟨⟨_, hn⟩, ht⟩ := hv
  unfold processVertex
  rw [List.getElem?_eq_getElem hi]
  cases hN : mesh.mNormals with
  | none =>
    cases hT : mesh.mTextureCoords0 with
    | none => simp
    | some ts =>
      rw [hT] at ht
      simp only [decide_eq_true_eq] at ht
      have h1 : ts[i]? = some ts[i] := List.getElem?_eq_getElem (by omega)
      simp [h1]
  | some ns =>
    rw [hN] at hn
    simp only [decide_eq_true_eq] at hn
    have h2 : ns[i]? = some ns[i] := List.getElem?_eq_getElem (by omega)
    cases hT : mesh.mTextureCoords0 with
    | none => simp [h2]
    | some ts =>
      rw [hT] at ht
      simp only [decide_eq_true_eq] at ht
      have h1 : ts[i]? = some ts[i] := List.getElem?_eq_getElem (by omega)
      simp [h1, h2]

theorem processVertices_isSome (scene : aiScene) (mesh : aiMesh)
    (hv : mesh.valid scene = true) : ∀ (n i : Nat) (acc : List Vertex),
    i + n ≤ mesh.mVertices.length → ∃ vs, processVertices mesh n i acc = some vs := by
  intro n
  induction n with
  | zero => intro i acc _; exact ⟨acc, rfl⟩
  | succ n ih =>
    intro i acc h
    obtain ⟨v, hv'⟩ := processVertex_isSome scene mesh hv i (by omega)
    unfold processVertices
    rw [hv']
    exact ih (i + 1) _ (by omega)

/-! ## `Mesh::Mesh` -/

theorem Mesh.ctor_fields (env : Env) (vertices : List Vertex) (indices : List Nat)
    (textures : List Texture) (w : World) :
    (Mesh.ctor env vertices indices textures w).1.vertices = vertices
      ∧ (Mesh.ctor env vertices indices textures w).1.indices = indices
      ∧ (Mesh.ctor env vertices indices textures w).1.textures = textures
      ∧ (Mesh.ctor env vertices indices textures w).1.VAO = env.genVertexArray w.nVertexArrays :=
  ⟨rfl, rfl, rfl, rfl⟩

/-- The calls of `Mesh::setupMesh` for a mesh whose objects get the names `vao`, `vbo`, `ebo`. -/
theorem Mesh.ctor_gl (env : Env) (vertices : List Vertex) (indices : List Nat)
    (textures : List Texture) (w : World) :
    (Mesh.ctor env vertices indices textures w).2.gl = w.gl ++
      [GLCall.GenVertexArrays (env.genVertexArray w.nVertexArrays),
       GLCall.BindVertexArray (env.genVertexArray w.nVertexArrays),
       GLCall.GenBuffers (env.genBuffer w.nBuffers),
       GLCall.BindBuffer GL_ARRAY_BUFFER (env.genBuffer w.nBuffers),
       GLCall.BufferData GL_ARRAY_BUFFER (vertices.length * 32) GL_STATIC_DRAW,
       GLCall.GenBuffers (env.genBuffer (w.nBuffers + 1)),
       GLCall.BindBuffer GL_ELEMENT_ARRAY_BUFFER (env.genBuffer (w.nBuffers + 1)),
       GLCall.BufferData GL_ELEMENT_ARRAY_BUFFER (indices.length * 4) GL_STATIC_DRAW,
       GLCall.EnableVertexAttribArray 0,
       GLCall.VertexAttribPointer 0 3 GL_FLOAT GL_FALSE 32 0,
       GLCall.EnableVertexAttribArray 1,
       GLCall.VertexAttribPointer 1 3 GL_FLOAT GL_FALSE 32 12,
       GLCall.EnableVertexAttribArray 2,
       GLCall.VertexAttribPointer 2 2 GL_FLOAT GL_FALSE 32 24,
       GLCall.BindVertexArray 0] := by
  simp only [Mesh.ctor, Mesh.setupMesh, glGenVertexArrays, glGenBuffers, World.emit,
    List.append_assoc, List.singleton_append, List.cons_append, List.nil_append]
  rfl

theorem Mesh.ctor_world (env : Env) (vertices : List Vertex) (indices : List Nat)
    (textures : List Texture) (w : World) :
    (∃ g, (Mesh.ctor env vertices indices textures w).2.gl = w.gl ++ g)
      ∧ (Mesh.ctor env vertices indices textures w).2.cerr = w.cerr
      ∧ (Mesh.ctor env vertices indices textures w).2.decoded = w.decoded
      ∧ (Mesh.ctor env vertices indices textures w).2.nTextures = w.nTextures :=
  ⟨⟨_, Mesh.ctor_gl env vertices indices textures w⟩, rfl, rfl, rfl⟩

/-! ## `Model::processMesh` -/

theorem processMesh_spec (env : Env) (scene : aiScene) (mesh : aiMesh) (m : Model) (w : World)
    (hv : mesh.valid scene = true) :
    ∃ mat vertices built m' w',
      scene.mMaterials[mesh.mMaterialIndex]? = some mat
      ∧ processVertices mesh mesh.mVertices.length 0 [] = some vertices
      ∧ Model.processMesh env scene mesh m w = some (built, m', w')
      ∧ built.vertices = vertices
      ∧ built.indices = processFaces mesh.mFaces []
      ∧ built.textures.map Texture.path = mat.loadedPaths
      ∧ (∀ t ∈ built.textures, t ∈ m'.textures_loaded)
      ∧ m'.meshes = m.meshes
      ∧ Grows env m w m' w' := by
  obtain ⟨vs, hvs⟩ := processVertices_isSome scene mesh hv mesh.mVertices.length 0 [] (by omega)
  have hmat : mesh.mMaterialIndex < scene.mMaterials.length := by
    unfold aiMesh.valid at hv
    simp only [Bool.and_eq_true, decide_eq_true_eq] at hv
    exact hv.1.1
  refine ⟨scene.mMaterials[mesh.mMaterialIndex], vs, ?_⟩
  have hget := List.getElem?_eq_getElem hmat
  generalize scene.mMaterials[mesh.mMaterialIndex] = mat at hget ⊢
  obtain ⟨d1, d2, d3, d4⟩ := loadTextureLoop_spec env "texture_diffuse"
    (mat.textures aiTextureType.DIFFUSE) m w
  generalize hD : Model.loadTextureLoop env "texture_diffuse"
    (mat.textures aiTextureType.DIFFUSE) [] m w = rD at d1 d2 d3 d4
  obtain ⟨tD, mD, wD⟩ := rD
  obtain ⟨s1, s2, s3, s4⟩ := loadTextureLoop_spec env "texture_specular"
    (mat.textures aiTextureType.SPECULAR) mD wD
  generalize hS : Model.loadTextureLoop env "texture_specular"
    (mat.textures aiTextureType.SPECULAR) [] mD wD = rS at s1 s2 s3 s4
  obtain ⟨tS, mS, wS⟩ := rS
  obtain ⟨n1, n2, n3, n4⟩ := loadTextureLoop_spec env "texture_normal"
    (mat.textures aiTextureType.HEIGHT) mS wS
  generalize hN : Model.loadTextureLoop env "texture_normal"
    (mat.textures aiTextureType.HEIGHT) [] mS wS = rN at n1 n2 n3 n4
  obtain ⟨tN, mN, wN⟩ := rN
  obtain ⟨a1, a2, a3, a4⟩ := loadTextureLoop_spec env "texture_height"
    (mat.textures aiTextureType.AMBIENT) mN wN
  generalize hA : Model.loadTextureLoop env "texture_height"
    (mat.textures aiTextureType.AMBIENT) [] mN wN = rA at a1 a2 a3 a4
  obtain ⟨tA, mA, wA⟩ := rA
  simp only [] at d1 d2 d3 d4 s1 s2 s3 s4 n1 n2 n3 n4 a1 a2 a3 a4
  obtain ⟨⟨g, hg⟩, hc, hdec, hnt⟩ := Mesh.ctor_world env vs (processFaces mesh.mFaces [])
    (tD ++ tS ++ tN ++ tA) wA
  refine ⟨(Mesh.ctor env vs (processFaces mesh.mFaces []) (tD ++ tS ++ tN ++ tA) wA).1, mA,
    (Mesh.ctor env vs (processFaces mesh.mFaces []) (tD ++ tS ++ tN ++ tA) wA).2,
    hget, hvs, ?_, rfl, rfl, ?_, ?_, ?_, ?_⟩
  · simp only [Model.processMesh, hvs, hget, Model.loadMaterialTextures, hD, hS, hN, hA,
      List.nil_append]
  · simp [Mesh.ctor_fields, aiMaterial.loadedPaths, d1, s1, n1, a1]
  · intro t ht
    rw [(Mesh.ctor_fields env _ _ _ _).2.2.1] at ht
    simp only [List.mem_append] at ht
    rcases ht with ((ht | ht) | ht) | ht
    · exact a4.mem_cache (n4.mem_cache (s4.mem_cache (d2 t ht)))
    · exact a4.mem_cache (n4.mem_cache (s2 t ht))
    · exact a4.mem_cache (n2 t ht)
    · exact a2 t ht
  · rw [a3, n3, s3, d3]
  · exact (((d4.trans s4).trans n4).trans a4).trans (Grows.world mA g hg hc hdec hnt)

/-! ## The flattening traversal -/

theorem processNodeMeshes_spec (env : Env) (scene : aiScene) (refs : List Nat) :
    ∀ (m : Model) (w : World), (∀ idx ∈ refs, scene.validRef idx = true) →
    ∃ m' w' built,
      Model.processNodeMeshes env scene refs m w = some (m', w')
      ∧ m'.meshes = m.meshes ++ built
      ∧ List.Forall₂ (Flattened scene) refs built
      ∧ (∀ b ∈ built, ∀ t ∈ b.textures, t ∈ m'.textures_loaded)
      ∧ Grows env m w m' w' := by
  induction refs with
  | nil =>
    intro m w _
    exact ⟨m, w, [], rfl, by simp, List.Forall₂.nil, by simp, Grows.refl env m w⟩
  | cons idx rest ih =>
    intro m w hvalid
    have hidx := hvalid idx (List.mem_cons_self _ _)
    unfold aiScene.validRef at hidx
    cases hmesh : scene.mMeshes[idx]? with
    | none => simp [hmesh] at hidx
    | some mesh =>
      simp only [hmesh] at hidx
      obtain ⟨mat, vs, built, m1, w1, hmat, hvs, hpm, hbv, hbi, hbt, hbc, hmm, hg⟩ :=
        processMesh_spec env scene mesh m w hidx
      obtain ⟨m2, w2, more, hrest, hmeshes, hall, hcache, hg2⟩ :=
        ih { m1 with meshes := m1.meshes ++ [built] } w1
          (fun i hi => hvalid i (List.mem_cons_of_mem _ hi))
      have hg1 : Grows env m w { m1 with meshes := m1.meshes ++ [built] } w1 := hg
      refine ⟨m2, w2, built :: more, ?_, ?_, ?_, ?_, hg1.trans hg2⟩
      · rw [Model.processNodeMeshes]
        simp only [hmesh, hpm]
        exact hrest
      · rw [hmeshes]
        simp [hmm]
      · refine List.Forall₂.cons ⟨mesh, mat, hmesh, hmat, ?_, ?_, hbt⟩ hall
        · rw [hbv]; exact hvs
        · rw [hbi, processFaces_eq]; simp
      · intro b hb t ht
        rcases List.mem_cons.1 hb with hb | hb
        · subst hb
          exact hg2.mem_cache (hbc t ht)
        · exact hcache b hb t ht

theorem processNodeMeshes_append (env : Env) (scene : aiScene) (a b : List Nat) :
    ∀ (m : Model) (w : World),
      Model.processNodeMeshes env scene (a ++ b) m w
        = (Model.processNodeMeshes env scene a m w).bind
            (fun r => Model.processNodeMeshes env scene b r.1 r.2) := by
  induction a with
  | nil => intro m w; simp [Model.processNodeMeshes]
  | cons idx rest ih =>
    intro m w
    simp only [List.cons_append, Model.processNodeMeshes]
    cases scene.mMeshes[idx]? with
    | none => rfl
    | some mesh =>
      simp only []
      cases Model.processMesh env scene mesh m w with
      | none => rfl
      | some r =>
        obtain ⟨built, m1, w1⟩ := r
        simp only []
        exact ih _ _

mutual
/-- Processing a node is processing its pre-order references as one flat loop. -/
theorem processNode_flat (env : Env) (scene : aiScene) :
    ∀ (node : aiNode) (m : Model) (w : World),
      Model.processNode env scene node m w
        = Model.processNodeMeshes env scene node.preorder m w
  | .mk ms cs, m, w => by
    rw [Model.processNode, aiNode.preorder, processNodeMeshes_append]
    cases Model.processNodeMeshes env scene ms m w with
    | none => rfl
    | some r =>
      obtain ⟨m1, w1⟩ := r
      simp only [Option.some_bind]
      exact processChildren_flat env scene cs m1 w1
/-- Processing a list of siblings is processing their pre-order references as one flat loop. -/
theorem processChildren_flat (env : Env) (scene : aiScene) :
    ∀ (cs : List aiNode) (m : Model) (w : World),
      Model.processChildren env scene cs m w
        = Model.processNodeMeshes env scene (aiNode.preorderList cs) m w
  | [], m, w => by
    rw [Model.processChildren, aiNode.preorderList, Model.processNodeMeshes]
  | c :: rest, m, w => by
    rw [Model.processChildren, aiNode.preorderList, processNodeMeshes_append,
      processNode_flat env scene c m w]
    cases Model.processNodeMeshes env scene c.preorder m w with
    | none => rfl
    | some r =>
      obtain ⟨m1, w1⟩ := r
      simp only [Option.some_bind]
      exact processChildren_flat env scene rest m1 w1
end

theorem loadModel_ok (env : Env) (path : String) (m : Model) (w : World) (scene : aiScene)
    (root : aiNode) (hread : env.ReadFile path = some scene)
    (hflags : scene.mFlags &&& AI_SCENE_FLAGS_INCOMPLETE = 0)
    (hroot : scene.mRootNode = some root) :
    Model.loadModel env path m w
      = Model.processNodeMeshes env scene root.preorder
          { m with directory := directoryOf path } w := by
  simp only [Model.loadModel, hread, hflags, hroot, ne_eq, not_true_eq_false, if_false]
  exact processNode_flat env scene root _ w

/-- The whole flattening, from the importer's scene to the mesh list. -/
theorem loadModel_spec (env : Env) (path : String) (m : Model) (w : World) (scene : aiScene)
    (root : aiNode) (hread : env.ReadFile path = some scene)
    (hflags : scene.mFlags &&& AI_SCENE_FLAGS_INCOMPLETE = 0)
    (hroot : scene.mRootNode = some root) (hvalid : scene.valid root = true) :
    ∃ m' w' built,
      Model.loadModel env path m w = some (m', w')
      ∧ m'.meshes = m.meshes ++ built
      ∧ List.Forall₂ (Flattened scene) root.preorder built
      ∧ (∀ b ∈ built, ∀ t ∈ b.textures, t ∈ m'.textures_loaded)
      ∧ Grows env { m with directory := directoryOf path } w m' w' := by
  rw [loadModel_ok env path m w scene root hread hflags hroot]
  apply processNodeMeshes_spec
  unfold aiScene.valid at hvalid
  exact List.all_eq_true.1 hvalid

/-! ## C1: number and order of the flattened meshes -/

/-- C1 (as amended): for a valid asset, `Model::loadModel` (with `Model::processNode` from the
root) succeeds and leaves in `Model::meshes` exactly one entry per mesh reference of the node
hierarchy, in depth-first pre-order of the references (a node's own references in stored
order, then each child subtree in child order); each entry has the vertices, the indices and
the texture paths of the scene mesh its reference names. When every one of the scene's `K`
meshes is referenced exactly once, that is `K` entries. -/
theorem C1_flatten_entry_per_reference_in_preorder (env : Env) (path : String)
    (matrices : List Mat4) (gamma : Bool) (w : World) (scene : aiScene) (root : aiNode)
    (hread : env.ReadFile path = some scene)
    (hflags : scene.mFlags &&& AI_SCENE_FLAGS_INCOMPLETE = 0)
    (hroot : scene.mRootNode = some root) (hvalid : scene.valid root = true) :
    ∃ m' w',
      Model.loadModel env path (Model.initial matrices gamma) w = some (m', w')
      ∧ m'.meshes.length = root.preorder.length
      ∧ List.Forall₂
          (fun idx built => ∃ mesh mat, scene.mMeshes[idx]? = some mesh
            ∧ scene.mMaterials[mesh.mMaterialIndex]? = some mat
            ∧ processVertices mesh mesh.mVertices.length 0 [] = some built.vertices
            ∧ built.indices = mesh.mFaces.flatMap (fun face => face.mIndices)
            ∧ built.textures.map Texture.path = mat.loadedPaths)
          root.preorder m'.meshes
      ∧ (root.preorder.Perm (List.range scene.mMeshes.length)
          → m'.meshes.length = scene.mMeshes.length) := by
  obtain ⟨m', w', built, hload, hmeshes, hall, _, _⟩ :=
    loadModel_spec env path (Model.initial matrices gamma) w scene root hread hflags hroot hvalid
  have hb : m'.meshes = built := by rw [hmeshes]; simp [Model.initial]
  have hlen : m'.meshes.length = root.preorder.length := by
    rw [hb]; exact hall.length_eq.symm
  refine ⟨m', w', hload, hlen, ?_, ?_⟩
  · rw [hb]; exact hall
  · intro hperm
    rw [hlen, hperm.length_eq, List.length_range]

/-- C1, witness: the scene with one mesh referenced once, under the root. -/
theorem C1_flatten_entry_per_reference_in_preorder_witness :
    ∃ m' w',
      Model.loadModel (sampleEnv (some (singleMeshScene sampleMaterial))) "assets/cube.obj"
        (Model.initial [Mat4.identity] false) World.empty = some (m', w')
      ∧ m'.meshes.length = (aiNode.mk [0] []).preorder.length
      ∧ List.Forall₂
          (fun idx built => ∃ mesh mat,
            (singleMeshScene sampleMaterial).mMeshes[idx]? = some mesh
            ∧ (singleMeshScene sampleMaterial).mMaterials[mesh.mMaterialIndex]? = some mat
            ∧ processVertices mesh mesh.mVertices.length 0 [] = some built.vertices
            ∧ built.indices = mesh.mFaces.flatMap (fun face => face.mIndices)
            ∧ built.textures.map Texture.path = mat.loadedPaths)
          (aiNode.mk [0] []).preorder m'.meshes
      ∧ ((aiNode.mk [0] []).preorder.Perm
            (List.range (singleMeshScene sampleMaterial).mMeshes.length)
          → m'.meshes.length = (singleMeshScene sampleMaterial).mMeshes.length) :=
  C1_flatten_entry_per_reference_in_preorder (sampleEnv (some (singleMeshScene sampleMaterial)))
    "assets/cube.obj" [Mat4.identity] false World.empty (singleMeshScene sampleMaterial)
    (aiNode.mk [0] []) rfl (by decide) rfl (by decide)

/-- C1, counterexample to the count as stated: a valid scene that contains one mesh, referenced
by the root and by its child, is flattened into two entries. -/
theorem C1_counterexample_shared_mesh :
    sharedMeshScene.mMeshes.length = 1
      ∧ sharedMeshScene.valid (aiNode.mk [0] [aiNode.mk [0] []]) = true
      ∧ (Model.loadModel (sampleEnv (some sharedMeshScene)) "assets/cube.obj"
          (Model.initial [Mat4.identity] false) World.empty).map
            (fun r => r.1.meshes.length) = some 2 := by
  refine ⟨rfl, by decide, by decide⟩

/-! ## C2: the texture cache does not load a recorded path again -/

/-- C2: let a material slot hold the single path `p`. If `textures_loaded` already records
`p`, `Model::loadMaterialTextures` returns the first record with that path (hence the handle
of the first load) and changes neither the model nor the outside world: `TextureFromFile` is
not called, nothing is decoded, no texture name is generated; wherever the loop meets `p`
among other paths, it pushes that record and goes on with the model and the world unchanged.
If `p` is not recorded, the
call makes one `TextureFromFile` call (one decode, one generated texture name), records the
result, and every later request for `p`, under any slot and role name, returns that same
record without a further call; the same holds when one slot lists `p` twice. -/
theorem C2_texture_cache_dedup (env : Env) (mat : aiMaterial) (type : aiTextureType)
    (typeName p : String) (m : Model) (w : World) (hslot : mat.textures type = [p]) :
    ((∃ t ∈ m.textures_loaded, t.path = p) →
      ∃ r, findLoaded m.textures_loaded p = some r ∧ r ∈ m.textures_loaded ∧ r.path = p
        ∧ Model.loadMaterialTextures env mat type typeName m w = ([r], m, w)
        ∧ ∀ (rest : List String) (textures : List Texture),
            Model.loadTextureLoop env typeName (p :: rest) textures m w
              = Model.loadTextureLoop env typeName rest (textures ++ [r]) m w)
    ∧ ((∀ t ∈ m.textures_loaded, t.path ≠ p) →
      ∃ r m1 w1,
        Model.loadMaterialTextures env mat type typeName m w = ([r], m1, w1)
        ∧ r = ⟨(TextureFromFile env p m.directory w).1, typeName, p⟩
        ∧ m1.textures_loaded = m.textures_loaded ++ [r]
        ∧ w1 = (TextureFromFile env p m.directory w).2
        ∧ w1.decoded = w.decoded ++ [m.directory ++ "/" ++ p]
        ∧ w1.nTextures = w.nTextures + 1
        ∧ (∀ (mat2 : aiMaterial) (type2 : aiTextureType) (typeName2 : String),
            mat2.textures type2 = [p] →
            Model.loadMaterialTextures env mat2 type2 typeName2 m1 w1 = ([r], m1, w1))
        ∧ (∀ (mat3 : aiMaterial) (type3 : aiTextureType), mat3.textures type3 = [p, p] →
            Model.loadMaterialTextures env mat3 type3 typeName m w = ([r, r], m1, w1))) := by
  constructor
  · rintro ⟨t, ht, htp⟩
    cases hf : findLoaded m.textures_loaded p with
    | none => exact absurd htp (findLoaded_eq_none.1 hf t ht)
    | some r =>
      refine ⟨r, rfl, (findLoaded_some hf).1, (findLoaded_some hf).2, ?_, ?_⟩
      · rw [Model.loadMaterialTextures, hslot, loadTextureLoop_hit env typeName p [] m w r hf]
        rfl
      · intro rest textures
        rw [Model.loadTextureLoop]
        simp only [hf]
  · intro hnone
    have hf : findLoaded m.textures_loaded p = none := findLoaded_eq_none.2 hnone
    have hf2 : findLoaded
        (m.textures_loaded ++ [⟨(TextureFromFile env p m.directory w).1, typeName, p⟩]) p
          = some ⟨(TextureFromFile env p m.directory w).1, typeName, p⟩ :=
      findLoaded_append_self m.textures_loaded
        ⟨(TextureFromFile env p m.directory w).1, typeName, p⟩ hf
    refine ⟨⟨(TextureFromFile env p m.directory w).1, typeName, p⟩,
      { m with textures_loaded := m.textures_loaded
          ++ [⟨(TextureFromFile env p m.directory w).1, typeName, p⟩] },
      (TextureFromFile env p m.directory w).2, ?_, rfl, rfl, rfl,
      TextureFromFile_decoded env p m.directory w,
      TextureFromFile_nTextures env p m.directory w, ?_, ?_⟩
    · rw [Model.loadMaterialTextures, hslot, loadTextureLoop_miss env typeName p [] m w hf]
      rfl
    · intro mat2 type2 typeName2 hslot2
      rw [Model.loadMaterialTextures, hslot2, loadTextureLoop_hit env typeName2 p [] _ _ _ hf2]
      rfl
    · intro mat3 type3 hslot3
      rw [Model.loadMaterialTextures, hslot3, loadTextureLoop_miss env typeName p [p] m w hf,
        loadTextureLoop_hit env typeName p [] _ _ _ hf2]
      rfl

/-- C2, witness: `wood.png` requested from a cache that records it, and from an empty cache. -/
theorem C2_texture_cache_dedup_witness :
    (∃ r, findLoaded cachedModel.textures_loaded "wood.png" = some r
        ∧ r ∈ cachedModel.textures_loaded ∧ r.path = "wood.png"
        ∧ Model.loadMaterialTextures (sampleEnv none) sampleMaterial aiTextureType.DIFFUSE
            "texture_specular" cachedModel World.empty = ([r], cachedModel, World.empty))
    ∧ (∃ r m1 w1,
        Model.loadMaterialTextures (sampleEnv none) sampleMaterial aiTextureType.DIFFUSE
            "texture_diffuse" (Model.initial [] false) World.empty = ([r], m1, w1)
        ∧ w1.decoded = ["/wood.png"] ∧ w1.nTextures = 1) := by
  constructor
  · obtain ⟨r, h1, h2, h3, h4, _⟩ := (C2_texture_cache_dedup (sampleEnv none) sampleMaterial
      aiTextureType.DIFFUSE "texture_specular" "wood.png" cachedModel World.empty rfl).1
        ⟨woodRecord, by decide, rfl⟩
    exact ⟨r, h1, h2, h3, h4⟩
  obtain ⟨r, m1, w1, h1, _, _, _, h5, h6, _⟩ :=
    (C2_texture_cache_dedup (sampleEnv none) sampleMaterial aiTextureType.DIFFUSE
      "texture_diffuse" "wood.png" (Model.initial [] false) World.empty rfl).2
        (by intro t ht; simp [Model.initial] at ht)
  exact ⟨r, m1, w1, h1, h5, h6⟩

/-! ## `Mesh::Draw` -/

theorem drawTextures_eq (shader : Shader) (ts : List Texture) :
    ∀ (i : Nat) (c : DrawCounters) (w : World),
      Mesh.drawTextures shader ts i c w = w.emit (textureCalls shader ts i c) := by
  induction ts with
  | nil => intro i c w; simp [Mesh.drawTextures, textureCalls, World.emit]
  | cons t rest ih =>
    intro i c w
    simp only [Mesh.drawTextures, textureCalls, ih]
    simp [World.emit, List.append_assoc]

theorem Mesh.Draw_gl (self : Mesh) (shader : Shader) (amount : Nat) (w : World) :
    (Mesh.Draw self shader amount w).gl
      = w.gl ++ (textureCalls shader self.textures 0 ⟨1, 1, 1, 1⟩
          ++ [GLCall.BindVertexArray self.VAO,
              GLCall.DrawElementsInstanced GL_TRIANGLES
                (toInt32 (toUInt32 self.indices.length)) GL_UNSIGNED_INT 0 (toInt32 amount),
              GLCall.BindVertexArray 0,
              GLCall.ActiveTexture GL_TEXTURE0]) := by
  simp [Mesh.Draw, drawTextures_eq, List.append_assoc]

theorem nextNumber_fst (name : String) (c : DrawCounters) (h : isRole name) :
    (nextNumber name c).1 = toString (c.get name) := by
  unfold isRole at h
  rcases h with h | h | h | h <;> subst h <;> simp [nextNumber, DrawCounters.get]

theorem nextNumber_get (name name' : String) (c : DrawCounters) (h' : isRole name') :
    (nextNumber name c).2.get name' = c.get name' + (if name = name' then 1 else 0) := by
  unfold isRole at h'
  by_cases h1 : name = "texture_diffuse"
  · subst h1
    rcases h' with h' | h' | h' | h' <;> subst h' <;> simp [nextNumber, DrawCounters.get]
  · by_cases h2 : name = "texture_specular"
    · subst h2
      rcases h' with h' | h' | h' | h' <;> subst h' <;> simp [nextNumber, DrawCounters.get]
    · by_cases h3 : name = "texture_normal"
      · subst h3
        rcases h' with h' | h' | h' | h' <;> subst h' <;> simp [nextNumber, DrawCounters.get]
      · by_cases h4 : name = "texture_height"
        · subst h4
          rcases h' with h' | h' | h' | h' <;> subst h' <;> simp [nextNumber, DrawCounters.get]
        · rcases h' with h' | h' | h' | h' <;> subst h' <;>
            simp [nextNumber, h1, h2, h3, h4]

theorem textureCalls_length (shader : Shader) (ts : List Texture) :
    ∀ (i : Nat) (c : DrawCounters), (textureCalls shader ts i c).length = 3 * ts.length := by
  induction ts with
  | nil => intro i c; rfl
  | cons t rest ih => intro i c; simp [textureCalls, ih]; omega

/-- The three calls the texture loop makes for the texture at position `k`. -/
theorem textureCalls_at (shader : Shader) (ts : List Texture) :
    ∀ (i : Nat) (c : DrawCounters) (k : Nat) (t : Texture), ts[k]? = some t → isRole t.type →
      (textureCalls shader ts i c)[3 * k]?
          = some (GLCall.ActiveTexture ((GL_TEXTURE0 + (i + k)) % 4294967296))
      ∧ (textureCalls shader ts i c)[3 * k + 1]?
          = some (GLCall.ShaderSet shader.ID
              ("material." ++ t.type ++ toString (c.get t.type
                + ((ts.take k).filter (fun u => u.type = t.type)).length))
              (toInt32 (i + k)))
      ∧ (textureCalls shader ts i c)[3 * k + 2]?
          = some (GLCall.BindTexture GL_TEXTURE_2D t.id) := by
  induction ts with
  | nil => intro i c k t hk; simp at hk
  | cons u rest ih =>
    intro i c k t hk hrole
    cases k with
    | zero =>
      simp only [List.getElem?_cons_zero, Option.some.injEq] at hk
      subst hk
      simp [textureCalls, nextNumber_fst _ _ hrole]
    | succ k =>
      simp only [List.getElem?_cons_succ] at hk
      obtain ⟨h0, h1, h2⟩ := ih (i + 1) (nextNumber u.type c).2 k t hk hrole
      have e0 : 3 * (k + 1) = 3 * k + 3 := by ring
      have e1 : 3 * (k + 1) + 1 = (3 * k + 1) + 3 := by ring
      have e2 : 3 * (k + 1) + 2 = (3 * k + 2) + 3 := by ring
      have hi : i + 1 + k = i + (k + 1) := by ring
      rw [hi] at h0 h1
      refine ⟨?_, ?_, ?_⟩
      · rw [e0]; simpa [textureCalls] using h0
      · rw [e1]
        rw [nextNumber_get _ _ _ hrole] at h1
        simp only [textureCalls, List.cons_append, List.nil_append, List.getElem?_cons_succ,
          List.take_succ_cons, List.filter_cons]
        rw [h1]
        by_cases hu : u.type = t.type
        · simp [hu]; ring_nf
        · simp [hu]
      · rw [e2]; simpa [textureCalls] using h2

theorem toInt32_small (n : Nat) (h : n < 2147483648) : toInt32 n = (n : Int) := by
  unfold toInt32
  have h1 : n % 4294967296 = n := Nat.mod_eq_of_lt (by omega)
  rw [h1, if_pos h]

theorem getElem?_trace {α : Type} (pre xs suf : List α) (j : Nat) (hj : j < xs.length) :
    (pre ++ (xs ++ suf))[pre.length + j]? = xs[j]? := by
  rw [List.getElem?_append_right (by omega), Nat.add_sub_cancel_left,
    List.getElem?_append_left hj]

/-- The calls of `Mesh::Draw` for the texture at position `k`, at their place in the trace;
the sampler value is the `int` conversion of the position. -/
theorem Mesh.Draw_texture_at (self : Mesh) (shader : Shader) (amount : Nat) (w : World)
    (k : Nat) (t : Texture) (hk : self.textures[k]? = some t) (hrole : isRole t.type) :
    (Mesh.Draw self shader amount w).gl[w.gl.length + 3 * k]?
        = some (GLCall.ActiveTexture ((GL_TEXTURE0 + k) % 4294967296))
    ∧ (Mesh.Draw self shader amount w).gl[w.gl.length + 3 * k + 1]?
        = some (GLCall.ShaderSet shader.ID
            ("material." ++ t.type ++ toString
              (1 + ((self.textures.take k).filter (fun u => u.type = t.type)).length))
            (toInt32 k))
    ∧ (Mesh.Draw self shader amount w).gl[w.gl.length + 3 * k + 2]?
        = some (GLCall.BindTexture GL_TEXTURE_2D t.id) := by
  have hlt : k < self.textures.length := by
    by_contra hc
    rw [List.getElem?_eq_none (by omega)] at hk
    exact Option.noConfusion hk
  have hlen := textureCalls_length shader self.textures 0 ⟨1, 1, 1, 1⟩
  obtain ⟨h0, h1, h2⟩ := textureCalls_at shader self.textures 0 ⟨1, 1, 1, 1⟩ k t hk hrole
  have hc : (⟨1, 1, 1, 1⟩ : DrawCounters).get t.type = 1 := by
    unfold isRole at hrole
    rcases hrole with h | h | h | h <;> rw [h] <;> simp [DrawCounters.get]
  rw [hc, Nat.zero_add] at h1
  rw [Nat.zero_add] at h0
  rw [Mesh.Draw_gl]
  refine ⟨?_, ?_, ?_⟩
  · rw [getElem?_trace _ _ _ _ (by omega), h0]
  · rw [Nat.add_assoc, getElem?_trace _ _ _ _ (by omega), h1]
  · rw [Nat.add_assoc, getElem?_trace _ _ _ _ (by omega), h2]

/-- In a list of `n + 1` equal textures, the sampler call for the last one. -/
theorem Mesh.Draw_replicate_last (n : Nat) (t : Texture) (hrole : isRole t.type)
    (shader : Shader) (amount : Nat) (w : World) :
    (Mesh.Draw ⟨[], [], List.replicate (n + 1) t, 0, 0, 0⟩ shader amount w).gl[
        w.gl.length + 3 * n + 1]?
      = some (GLCall.ShaderSet shader.ID ("material." ++ t.type ++ toString (1 + n))
          (toInt32 n)) := by
  have h := (Mesh.Draw_texture_at ⟨[], [], List.replicate (n + 1) t, 0, 0, 0⟩ shader amount w
    n t (by simp [List.getElem?_replicate]) hrole).2.1
  simpa [List.take_replicate, List.filter_replicate] using h

/-! ## C3: sampler names and texture units in `Mesh::Draw` -/

/-- C3 (as amended): in any call of `Mesh::Draw`, for the texture `t` at a position
`i < 2^31` of the mesh's texture list whose type is one of the four role names, the call
activates texture unit `GL_TEXTURE0 + i`, sets the sampler uniform named
`"material." + role + ordinal` to `i`, where `ordinal` is the decimal rendering of 1 plus the
number of earlier textures of the list with the same role, and binds `t`'s handle. The four
counters are independent and start at 1 in every call; in particular two diffuse textures
followed by one specular texture give the names `material.texture_diffuse1`,
`material.texture_diffuse2`, `material.texture_specular1`. -/
theorem C3_sampler_name_and_unit (self : Mesh) (shader : Shader) (amount : Nat) (w : World)
    (i : Nat) (t : Texture) (hi : self.textures[i]? = some t) (hrole : isRole t.type)
    (hint : i < 2147483648) :
    (Mesh.Draw self shader amount w).gl[w.gl.length + 3 * i]?
        = some (GLCall.ActiveTexture (GL_TEXTURE0 + i))
    ∧ (Mesh.Draw self shader amount w).gl[w.gl.length + 3 * i + 1]?
        = some (GLCall.ShaderSet shader.ID
            ("material." ++ t.type ++ toString
              (1 + ((self.textures.take i).filter (fun u => u.type = t.type)).length))
            (i : Int))
    ∧ (Mesh.Draw self shader amount w).gl[w.gl.length + 3 * i + 2]?
        = some (GLCall.BindTexture GL_TEXTURE_2D t.id)
    ∧ (∀ (a b c : Texture), a.type = "texture_diffuse" → b.type = "texture_diffuse" →
        c.type = "texture_specular" → self.textures = [a, b, c] →
        samplerNames ((Mesh.Draw self shader amount w).gl.drop w.gl.length)
          = ["material.texture_diffuse1", "material.texture_diffuse2",
             "material.texture_specular1"]) := by
  obtain ⟨h0, h1, h2⟩ := Mesh.Draw_texture_at self shader amount w i t hi hrole
  rw [toInt32_small i hint] at h1
  have hmod : (GL_TEXTURE0 + i) % 4294967296 = GL_TEXTURE0 + i :=
    Nat.mod_eq_of_lt (by unfold GL_TEXTURE0; omega)
  rw [hmod] at h0
  refine ⟨h0, h1, h2, ?_⟩
  intro a b c ha hb hc hts
  rw [Mesh.Draw_gl, List.drop_left, hts]
  simp [textureCalls, samplerNames, nextNumber, ha, hb, hc]
  decide

/-- C3, witness: the second of two diffuse textures, followed by a specular one. -/
theorem C3_sampler_name_and_unit_witness :
    (Mesh.Draw ⟨[], [0, 1, 2], [⟨1, "texture_diffuse", "a.png"⟩,
        ⟨2, "texture_diffuse", "b.png"⟩, ⟨3, "texture_specular", "c.png"⟩], 1, 1, 2⟩
        ⟨7⟩ 5 World.empty).gl[0 + 3 * 1 + 1]?
      = some (GLCall.ShaderSet 7 "material.texture_diffuse2" 1) := by
  have h := (C3_sampler_name_and_unit
    ⟨[], [0, 1, 2], [⟨1, "texture_diffuse", "a.png"⟩, ⟨2, "texture_diffuse", "b.png"⟩,
        ⟨3, "texture_specular", "c.png"⟩], 1, 1, 2⟩ ⟨7⟩ 5 World.empty 1
    ⟨2, "texture_diffuse", "b.png"⟩ rfl (Or.inl rfl) (by decide)).2.1
  exact h

/-- C3, counterexample to the texture unit as stated for every list: in a list of 2^31 + 1
diffuse textures the sampler of the texture at position 2^31 is set to -2^31, the value of
`static_cast<int>(i)`, not to the position. -/
theorem C3_counterexample_position_beyond_int :
    (Mesh.Draw ⟨[], [], List.replicate (2147483648 + 1) ⟨1, "texture_diffuse", "wood.png"⟩,
        0, 0, 0⟩ ⟨0⟩ 1 World.empty).gl[0 + 3 * 2147483648 + 1]?
      = some (GLCall.ShaderSet 0
          ("material." ++ "texture_diffuse" ++ toString (1 + 2147483648)) (-2147483648)) :=
  Mesh.Draw_replicate_last 2147483648 ⟨1, "texture_diffuse", "wood.png"⟩ (Or.inl rfl) ⟨0⟩ 1
    World.empty

/-! ## `Model::Draw` -/

theorem drawCalls_append (a b : List GLCall) : drawCalls (a ++ b) = drawCalls a ++ drawCalls b := by
  simp [drawCalls]

theorem drawCalls_textureCalls (shader : Shader) (ts : List Texture) :
    ∀ (i : Nat) (c : DrawCounters), drawCalls (textureCalls shader ts i c) = [] := by
  induction ts with
  | nil => intro i c; rfl
  | cons t rest ih =>
    intro i c
    rw [textureCalls, drawCalls_append, ih]
    rfl

theorem Model.drawLoop_gl (shader : Shader) (amount : Nat) (meshes : List Mesh) :
    ∀ w : World, (Model.drawLoop shader amount meshes w).gl
      = w.gl ++ meshes.flatMap (fun mesh =>
          textureCalls shader mesh.textures 0 ⟨1, 1, 1, 1⟩
            ++ [GLCall.BindVertexArray mesh.VAO,
                GLCall.DrawElementsInstanced GL_TRIANGLES
                  (toInt32 (toUInt32 mesh.indices.length)) GL_UNSIGNED_INT 0 (toInt32 amount),
                GLCall.BindVertexArray 0,
                GLCall.ActiveTexture GL_TEXTURE0]) := by
  induction meshes with
  | nil => intro w; simp [Model.drawLoop]
  | cons mesh rest ih =>
    intro w
    rw [Model.drawLoop, ih, Mesh.Draw_gl]
    simp [List.append_assoc]

theorem Model.drawLoop_drawCalls (shader : Shader) (amount : Nat) (meshes : List Mesh)
    (w : World) :
    drawCalls (Model.drawLoop shader amount meshes w).gl
      = drawCalls w.gl ++ meshes.map (fun mesh =>
          GLCall.DrawElementsInstanced GL_TRIANGLES (toInt32 (toUInt32 mesh.indices.length))
            GL_UNSIGNED_INT 0 (toInt32 amount)) := by
  rw [Model.drawLoop_gl, drawCalls_append]
  congr 1
  induction meshes with
  | nil => rfl
  | cons mesh rest ih =>
    rw [List.flatMap_cons, drawCalls_append, drawCalls_append, drawCalls_textureCalls, ih]
    rfl

/-! ## C4: one instanced draw call per mesh -/

/-- C4 (as amended): one call of `Model::Draw` on a model with `M` meshes and `N < 2^31`
transforms issues exactly `M` instanced draw calls, one per mesh in the order of
`Model::meshes`, each with that mesh's vertex array bound and each with instance count `N`.
(The count travels in the `unsigned int` parameter `amount` of `Mesh::Draw` and from there
in the signed 32-bit `GLsizei` parameter of `glDrawElementsInstanced`.) -/
theorem C4_one_instanced_draw_per_mesh (m : Model) (shader : Shader) (w : World)
    (hN : m.matrices.length < 2147483648) :
    drawCalls (Model.Draw m shader w).gl
        = drawCalls w.gl ++ m.meshes.map (fun mesh =>
            GLCall.DrawElementsInstanced GL_TRIANGLES (toInt32 (toUInt32 mesh.indices.length))
              GL_UNSIGNED_INT 0 (m.matrices.length : Int))
    ∧ (drawCalls (Model.Draw m shader w).gl).length
        = (drawCalls w.gl).length + m.meshes.length
    ∧ (Model.Draw m shader w).gl
        = w.gl ++ m.meshes.flatMap (fun mesh =>
            textureCalls shader mesh.textures 0 ⟨1, 1, 1, 1⟩
              ++ [GLCall.BindVertexArray mesh.VAO,
                  GLCall.DrawElementsInstanced GL_TRIANGLES
                    (toInt32 (toUInt32 mesh.indices.length)) GL_UNSIGNED_INT 0
                    (m.matrices.length : Int),
                  GLCall.BindVertexArray 0,
                  GLCall.ActiveTexture GL_TEXTURE0]) := by
  have hmod : toUInt32 m.matrices.length = m.matrices.length :=
    Nat.mod_eq_of_lt (by omega)
  have hint : toInt32 m.matrices.length = (m.matrices.length : Int) := toInt32_small _ hN
  have h1 := Model.drawLoop_drawCalls shader m.matrices.length m.meshes w
  have h2 := Model.drawLoop_gl shader m.matrices.length m.meshes w
  rw [hint] at h1 h2
  unfold Model.Draw
  rw [hmod]
  refine ⟨h1, ?_, h2⟩
  rw [h1, List.length_append, List.length_map]

/-- C4, witness: one mesh and 1,000,000 instance transforms give exactly one draw call,
with instance count 1,000,000. -/
theorem C4_one_instanced_draw_per_mesh_witness :
    drawCalls (Model.Draw (sampleModel (List.replicate 1000000 Mat4.identity)) ⟨7⟩
        World.empty).gl
      = [GLCall.DrawElementsInstanced GL_TRIANGLES 3 GL_UNSIGNED_INT 0 1000000] := by
  have h := (C4_one_instanced_draw_per_mesh (sampleModel (List.replicate 1000000 Mat4.identity))
    ⟨7⟩ World.empty (by
      show (List.replicate 1000000 Mat4.identity).length < 2147483648
      rw [List.length_replicate]; decide)).1
  rw [h]
  show [] ++ [GLCall.DrawElementsInstanced GL_TRIANGLES (toInt32 (toUInt32 3)) GL_UNSIGNED_INT 0
    ((List.replicate 1000000 Mat4.identity).length : Int)] = _
  rw [List.length_replicate]
  rfl

/-- C4, counterexample to the instance count as stated for every `N`: with 2^31 instance
transforms the one draw call of a one-mesh model is made with instance count -2^31, the
value of 2^31 in the signed 32-bit parameter; with 2^32 transforms the count is 0, the value
of 2^32 in the `unsigned int` parameter `amount`. -/
theorem C4_counterexample_instance_count_wraps :
    drawCalls (Model.Draw (sampleModel (List.replicate 2147483648 Mat4.identity)) ⟨7⟩
        World.empty).gl
      = [GLCall.DrawElementsInstanced GL_TRIANGLES 3 GL_UNSIGNED_INT 0 (-2147483648)]
    ∧ drawCalls (Model.Draw (sampleModel (List.replicate 4294967296 Mat4.identity)) ⟨7⟩
        World.empty).gl
      = [GLCall.DrawElementsInstanced GL_TRIANGLES 3 GL_UNSIGNED_INT 0 0] := by
  constructor
  · unfold Model.Draw
    rw [Model.drawLoop_drawCalls]
    show [] ++ [GLCall.DrawElementsInstanced GL_TRIANGLES (toInt32 (toUInt32 3))
      GL_UNSIGNED_INT 0
      (toInt32 (toUInt32 (List.replicate 2147483648 Mat4.identity).length))] = _
    rw [List.length_replicate]
    rfl
  · unfold Model.Draw
    rw [Model.drawLoop_drawCalls]
    show [] ++ [GLCall.DrawElementsInstanced GL_TRIANGLES (toInt32 (toUInt32 3))
      GL_UNSIGNED_INT 0
      (toInt32 (toUInt32 (List.replicate 4294967296 Mat4.identity).length))] = _
    rw [List.length_replicate]
    rfl

/-! ## C5: a failed import leaves an empty, usable model -/

theorem Model.loadModel_failed (env : Env) (path : String) (m : Model) (w : World)
    (hfail : env.ReadFile path = none ∨ ∃ scene, env.ReadFile path = some scene
      ∧ (scene.mFlags &&& AI_SCENE_FLAGS_INCOMPLETE ≠ 0 ∨ scene.mRootNode = none)) :
    Model.loadModel env path m w = some (m, w.log (importFailure env path)) := by
  unfold Model.loadModel importFailure
  rcases hfail with h | ⟨scene, h, hbad⟩
  · rw [h]
  · rw [h]
    simp only []
    by_cases hflag : scene.mFlags &&& AI_SCENE_FLAGS_INCOMPLETE ≠ 0
    · rw [if_pos hflag]
    · rw [if_neg hflag]
      rcases hbad with hbad | hbad
      · exact absurd hbad hflag
      · rw [hbad]

/-- C5: if the importer returns no scene, a scene flagged incomplete, or a scene without a
root node, `Model::loadModel` returns with the model untouched (so `Model::meshes` stays empty
and no node is traversed), having written exactly one line, the import error, to `std::cerr`
and made no OpenGL call; the constructor still completes, and `Model::Draw` on the constructed
model makes no call at all, in particular no draw call. -/
theorem C5_failed_import_gives_empty_model (env : Env) (path : String) (matrices : List Mat4)
    (gamma : Bool) (w : World)
    (hfail : env.ReadFile path = none ∨ ∃ scene, env.ReadFile path = some scene
      ∧ (scene.mFlags &&& AI_SCENE_FLAGS_INCOMPLETE ≠ 0 ∨ scene.mRootNode = none)) :
    (∀ m : Model, Model.loadModel env path m w = some (m, w.log (importFailure env path)))
    ∧ (w.log (importFailure env path)).cerr
        = w.cerr ++ ["ERROR::ASSIMP::" ++ env.GetErrorString path]
    ∧ (w.log (importFailure env path)).gl = w.gl
    ∧ ∃ m' w', Model.ctor env path matrices gamma w = some (m', w')
        ∧ m'.meshes = [] ∧ m'.textures_loaded = []
        ∧ w'.cerr = w.cerr ++ ["ERROR::ASSIMP::" ++ env.GetErrorString path]
        ∧ w'.decoded = w.decoded
        ∧ drawCalls w'.gl = drawCalls w.gl
        ∧ ∀ (shader : Shader) (w2 : World), Model.Draw m' shader w2 = w2 := by
  refine ⟨fun m => Model.loadModel_failed env path m w hfail, rfl, rfl, ?_⟩
  refine ⟨Model.initial matrices gamma,
    Model.loadInstances env (Model.initial matrices gamma) (w.log (importFailure env path)),
    ?_, rfl, rfl, rfl, rfl, ?_, fun shader w2 => rfl⟩
  · unfold Model.ctor
    rw [Model.loadModel_failed env path (Model.initial matrices gamma) w hfail]
  · simp [Model.loadInstances, Model.initial, Model.attachLoop, glGenBuffers, drawCalls]

/-- C5, witness: the importer returns no scene. -/
theorem C5_failed_import_gives_empty_model_witness :
    ∃ m' w', Model.ctor (sampleEnv none) "assets/cube.obj" [Mat4.identity] false World.empty
        = some (m', w')
      ∧ m'.meshes = [] ∧ w'.cerr = ["ERROR::ASSIMP::Unable to open file."] := by
  obtain ⟨m', w', h1, h2, _, h4, _⟩ := (C5_failed_import_gives_empty_model (sampleEnv none)
    "assets/cube.obj" [Mat4.identity] false World.empty (Or.inl rfl)).2.2.2
  exact ⟨m', w', h1, h2, h4⟩

/-! ## C7: the instance stream -/

theorem Model.attachLoop_gl (meshes : List Mesh) : ∀ w : World,
    (Model.attachLoop meshes w).gl
      = w.gl ++ meshes.flatMap (fun mesh => attachInstanceAttributes mesh.VAO) := by
  induction meshes with
  | nil => intro w; simp [Model.attachLoop]
  | cons mesh rest ih => intro w; rw [Model.attachLoop, ih]; simp [List.append_assoc]

/-- C7: `Model::loadInstances` generates one buffer, binds it and uploads the transform
sequence into it once (`N * 64` bytes); then, for every mesh in order, exactly once, it binds
the mesh's vertex array, enables slots 3, 4, 5, 6 with 4 float components each, stride 64 and
byte offsets 0, 16, 32, 48, sets the divisor of each of the four slots to 1 and unbinds the
vertex array. No other buffer is bound in between, so all four slots of every mesh read from
that one buffer, and no call touches slots 0 to 2, which are the slots `Mesh::setupMesh`
configures. -/
theorem C7_instance_stream_attachment (env : Env) (m : Model) (w : World) :
    (Model.loadInstances env m w).gl
        = w.gl ++ ([GLCall.GenBuffers (env.genBuffer w.nBuffers),
            GLCall.BindBuffer GL_ARRAY_BUFFER (env.genBuffer w.nBuffers),
            GLCall.BufferData GL_ARRAY_BUFFER (m.matrices.length * 64) GL_STATIC_DRAW]
          ++ m.meshes.flatMap (fun mesh =>
            [GLCall.BindVertexArray mesh.VAO,
             GLCall.EnableVertexAttribArray 3,
             GLCall.VertexAttribPointer 3 4 GL_FLOAT GL_FALSE 64 0,
             GLCall.EnableVertexAttribArray 4,
             GLCall.VertexAttribPointer 4 4 GL_FLOAT GL_FALSE 64 16,
             GLCall.EnableVertexAttribArray 5,
             GLCall.VertexAttribPointer 5 4 GL_FLOAT GL_FALSE 64 32,
             GLCall.EnableVertexAttribArray 6,
             GLCall.VertexAttribPointer 6 4 GL_FLOAT GL_FALSE 64 48,
             GLCall.VertexAttribDivisor 3 1,
             GLCall.VertexAttribDivisor 4 1,
             GLCall.VertexAttribDivisor 5 1,
             GLCall.VertexAttribDivisor 6 1,
             GLCall.BindVertexArray 0]))
    ∧ bufferUploads ((Model.loadInstances env m w).gl.drop w.gl.length)
        = [GLCall.BufferData GL_ARRAY_BUFFER (m.matrices.length * 64) GL_STATIC_DRAW]
    ∧ bufferBinds ((Model.loadInstances env m w).gl.drop w.gl.length)
        = [GLCall.BindBuffer GL_ARRAY_BUFFER (env.genBuffer w.nBuffers)]
    ∧ (∀ c ∈ (Model.loadInstances env m w).gl.drop w.gl.length, ∀ i : Nat,
        c.attribSlot = some i → 3 ≤ i ∧ i ≤ 6)
    ∧ (∀ (vertices : List Vertex) (indices : List Nat) (textures : List Texture) (w0 : World),
        ∀ c ∈ (Mesh.ctor env vertices indices textures w0).2.gl.drop w0.gl.length, ∀ i : Nat,
          c.attribSlot = some i → i ≤ 2) := by
  have hgl : (Model.loadInstances env m w).gl
        = w.gl ++ ([GLCall.GenBuffers (env.genBuffer w.nBuffers),
            GLCall.BindBuffer GL_ARRAY_BUFFER (env.genBuffer w.nBuffers),
            GLCall.BufferData GL_ARRAY_BUFFER (m.matrices.length * 64) GL_STATIC_DRAW]
          ++ m.meshes.flatMap (fun mesh => attachInstanceAttributes mesh.VAO)) := by
    simp [Model.loadInstances, Model.attachLoop_gl, glGenBuffers, sizeof_mat4,
      List.append_assoc]
  refine ⟨hgl, ?_, ?_, ?_, ?_⟩
  · rw [hgl, List.drop_left]
    have : ∀ meshes : List Mesh,
        bufferUploads (meshes.flatMap (fun mesh => attachInstanceAttributes mesh.VAO)) = [] := by
      intro meshes
      induction meshes with
      | nil => rfl
      | cons mesh rest ih =>
        rw [List.flatMap_cons]
        unfold bufferUploads at ih ⊢
        rw [List.filter_append, ih]
        rfl
    unfold bufferUploads at this ⊢
    rw [List.filter_append, this]
    rfl
  · rw [hgl, List.drop_left]
    have : ∀ meshes : List Mesh,
        bufferBinds (meshes.flatMap (fun mesh => attachInstanceAttributes mesh.VAO)) = [] := by
      intro meshes
      induction meshes with
      | nil => rfl
      | cons mesh rest ih =>
        rw [List.flatMap_cons]
        unfold bufferBinds at ih ⊢
        rw [List.filter_append, ih]
        rfl
    unfold bufferBinds at this ⊢
    rw [List.filter_append, this]
    rfl
  · rw [hgl, List.drop_left]
    intro c hc i hi
    simp only [List.mem_append, List.mem_cons, List.mem_flatMap, attachInstanceAttributes,
      List.mem_singleton, List.not_mem_nil, or_false] at hc
    rcases hc with (hc | hc | hc) | ⟨mesh, _, hc⟩
    · subst hc; simp [GLCall.attribSlot] at hi
    · subst hc; simp [GLCall.attribSlot] at hi
    · subst hc; simp [GLCall.attribSlot] at hi
    · rcases hc with hc | hc | hc | hc | hc | hc | hc | hc | hc | hc | hc | hc | hc | hc <;>
        subst hc <;> simp [GLCall.attribSlot] at hi <;> omega
  · intro vertices indices textures w0 c hc i hi
    rw [Mesh.ctor_gl, List.drop_left] at hc
    simp only [List.mem_cons, List.mem_singleton, List.not_mem_nil, or_false] at hc
    rcases hc with hc | hc | hc | hc | hc | hc | hc | hc | hc | hc | hc | hc | hc | hc | hc <;>
      subst hc <;> simp [GLCall.attribSlot] at hi <;> omega

/-! ## C8: upload format and wrap mode -/

/-- C8: for a successfully decoded image `TextureFromFile` uploads with the format chosen from
the channel count, 1 giving `GL_RED`, 3 giving `GL_RGB` and 4 giving `GL_RGBA`, and sets the
wrap mode on both axes to `GL_CLAMP_TO_EDGE` when the format is `GL_RGBA` and to `GL_REPEAT`
otherwise; mipmaps are generated and the generated name is returned. -/
theorem C8_upload_format_and_wrap (env : Env) (path directory : String) (w : World)
    (img : Image) (h : env.stbi_load (directory ++ "/" ++ path) = some img) :
    ∃ format wrap,
      (TextureFromFile env path directory w).1 = env.genTexture w.nTextures
      ∧ (TextureFromFile env path directory w).2.gl
          = w.gl ++ [GLCall.GenTextures (env.genTexture w.nTextures),
              GLCall.BindTexture GL_TEXTURE_2D (env.genTexture w.nTextures),
              GLCall.TexImage2D GL_TEXTURE_2D 0 format img.width img.height 0 format
                GL_UNSIGNED_BYTE,
              GLCall.GenerateMipmap GL_TEXTURE_2D,
              GLCall.TexParameteri GL_TEXTURE_2D GL_TEXTURE_WRAP_S wrap,
              GLCall.TexParameteri GL_TEXTURE_2D GL_TEXTURE_WRAP_T wrap,
              GLCall.TexParameteri GL_TEXTURE_2D GL_TEXTURE_MIN_FILTER GL_LINEAR_MIPMAP_LINEAR,
              GLCall.TexParameteri GL_TEXTURE_2D GL_TEXTURE_MAG_FILTER GL_LINEAR]
      ∧ (img.nrComponents = 1 → format = GL_RED ∧ wrap = GL_REPEAT)
      ∧ (img.nrComponents = 3 → format = GL_RGB ∧ wrap = GL_REPEAT)
      ∧ (img.nrComponents = 4 → format = GL_RGBA ∧ wrap = GL_CLAMP_TO_EDGE)
      ∧ (format = GL_RGBA → wrap = GL_CLAMP_TO_EDGE)
      ∧ (format ≠ GL_RGBA → wrap = GL_REPEAT)
      ∧ (TextureFromFile env path directory w).2.cerr = w.cerr := by
  refine ⟨uploadFormat env img,
    if uploadFormat env img = GL_RGBA then GL_CLAMP_TO_EDGE else GL_REPEAT, ?_⟩
  rw [TextureFromFile_some env path directory w img h]
  refine ⟨rfl, rfl, ?_, ?_, ?_, ?_, ?_, rfl⟩
  · intro hn; simp [uploadFormat, hn, GL_RED, GL_RGBA]
  · intro hn; simp [uploadFormat, hn, GL_RGB, GL_RGBA]
  · intro hn; simp [uploadFormat, hn]
  · intro hf; simp [hf]
  · intro hf; simp [hf]

/-- C8, witness: the RGB image `wood.png` and the RGBA image `leaf.png`. -/
theorem C8_upload_format_and_wrap_witness :
    (∃ format wrap,
      (TextureFromFile (sampleEnv none) "wood.png" "assets" World.empty).2.gl
          = [GLCall.GenTextures 1, GLCall.BindTexture GL_TEXTURE_2D 1,
              GLCall.TexImage2D GL_TEXTURE_2D 0 format 4 4 0 format GL_UNSIGNED_BYTE,
              GLCall.GenerateMipmap GL_TEXTURE_2D,
              GLCall.TexParameteri GL_TEXTURE_2D GL_TEXTURE_WRAP_S wrap,
              GLCall.TexParameteri GL_TEXTURE_2D GL_TEXTURE_WRAP_T wrap,
              GLCall.TexParameteri GL_TEXTURE_2D GL_TEXTURE_MIN_FILTER GL_LINEAR_MIPMAP_LINEAR,
              GLCall.TexParameteri GL_TEXTURE_2D GL_TEXTURE_MAG_FILTER GL_LINEAR]
      ∧ format = GL_RGB ∧ wrap = GL_REPEAT)
    ∧ (∃ format wrap,
      (TextureFromFile (sampleEnv none) "leaf.png" "assets" World.empty).2.gl
          = [GLCall.GenTextures 1, GLCall.BindTexture GL_TEXTURE_2D 1,
              GLCall.TexImage2D GL_TEXTURE_2D 0 format 2 2 0 format GL_UNSIGNED_BYTE,
              GLCall.GenerateMipmap GL_TEXTURE_2D,
              GLCall.TexParameteri GL_TEXTURE_2D GL_TEXTURE_WRAP_S wrap,
              GLCall.TexParameteri GL_TEXTURE_2D GL_TEXTURE_WRAP_T wrap,
              GLCall.TexParameteri GL_TEXTURE_2D GL_TEXTURE_MIN_FILTER GL_LINEAR_MIPMAP_LINEAR,
              GLCall.TexParameteri GL_TEXTURE_2D GL_TEXTURE_MAG_FILTER GL_LINEAR]
      ∧ format = GL_RGBA ∧ wrap = GL_CLAMP_TO_EDGE) := by
  constructor
  · obtain ⟨format, wrap, _, h2, _, h4, _⟩ := C8_upload_format_and_wrap (sampleEnv none)
      "wood.png" "assets" World.empty ⟨4, 4, 3⟩ (by decide)
    exact ⟨format, wrap, h2, (h4 rfl).1, (h4 rfl).2⟩
  · obtain ⟨format, wrap, _, h2, _, _, h5, _⟩ := C8_upload_format_and_wrap (sampleEnv none)
      "leaf.png" "assets" World.empty ⟨2, 2, 4⟩ (by decide)
    exact ⟨format, wrap, h2, (h5 rfl).1, (h5 rfl).2⟩

/-! ## C6: a texture file that cannot be decoded -/

theorem forall₂_getElem? {α β : Type} {R : α → β → Prop} {l₁ : List α} {l₂ : List β}
    (h : List.Forall₂ R l₁ l₂) : ∀ (k : Nat) (a : α), l₁[k]? = some a →
      ∃ b, l₂[k]? = some b ∧ R a b := by
  induction h with
  | nil => intro k a hk; simp at hk
  | cons hab _ ih =>
    intro k a hk
    cases k with
    | zero =>
      simp only [List.getElem?_cons_zero, Option.some.injEq] at hk
      subst hk
      exact ⟨_, by simp, hab⟩
    | succ k =>
      simp only [List.getElem?_cons_succ] at hk
      obtain ⟨b, hb, hr⟩ := ih k a hk
      exact ⟨b, by simpa using hb, hr⟩

theorem string_append_left_injective (s : String) :
    Function.Injective (fun q : String => s ++ q) := by
  intro a b h
  have hd := congrArg String.data h
  simp only [String.data_append] at hd
  exact String.ext (List.append_cancel_left hd)

/-- C6 (as amended): let a valid asset have, at position `k` of the flattening order, a mesh
whose material references the path `p` in one of the four slots `Model::processMesh` reads
(`DIFFUSE`, `SPECULAR`, `HEIGHT`, `AMBIENT`), and let the image file of `p` not be decoded.
Then `TextureFromFile` for `p` writes the failure line and still returns the name it
generated, and the flattening completes. During the flattening `TextureFromFile` is called
for `p` exactly once, in a state `w0` reached from the initial one, as the `j`-th decode of
the flattening; the `k`-th mesh's texture list contains a record for `p` that is also in the
cache and whose handle is the value that call returned, the name `glGenTextures` generated
in it; and the calls and the failure line of that call are part of the final trace. -/
theorem C6_undecodable_texture_still_recorded (env : Env) (path : String)
    (matrices : List Mat4) (gamma : Bool) (w : World) (scene : aiScene) (root : aiNode)
    (k idx : Nat) (mesh : aiMesh) (mat : aiMaterial) (p : String)
    (hread : env.ReadFile path = some scene)
    (hflags : scene.mFlags &&& AI_SCENE_FLAGS_INCOMPLETE = 0)
    (hroot : scene.mRootNode = some root) (hvalid : scene.valid root = true)
    (hk : root.preorder[k]? = some idx) (hmesh : scene.mMeshes[idx]? = some mesh)
    (hmat : scene.mMaterials[mesh.mMaterialIndex]? = some mat)
    (hp : p ∈ mat.textures aiTextureType.DIFFUSE ∨ p ∈ mat.textures aiTextureType.SPECULAR
      ∨ p ∈ mat.textures aiTextureType.HEIGHT ∨ p ∈ mat.textures aiTextureType.AMBIENT)
    (hfail : env.stbi_load (directoryOf path ++ "/" ++ p) = none) :
    (∀ w0 : World,
      (TextureFromFile env p (directoryOf path) w0).1 = env.genTexture w0.nTextures
      ∧ (TextureFromFile env p (directoryOf path) w0).2.gl
          = w0.gl ++ [GLCall.GenTextures (env.genTexture w0.nTextures)]
      ∧ (TextureFromFile env p (directoryOf path) w0).2.cerr
          = w0.cerr ++ ["Texture failed to load at path: " ++ p])
    ∧ ∃ m' w' built r w0 j g e,
        Model.loadModel env path (Model.initial matrices gamma) w = some (m', w')
        ∧ m'.meshes[k]? = some built
        ∧ r ∈ built.textures ∧ r.path = p ∧ r ∈ m'.textures_loaded
        ∧ World.Extends w w0
        ∧ r.id = (TextureFromFile env p (directoryOf path) w0).1
        ∧ World.Extends (TextureFromFile env p (directoryOf path) w0).2 w'
        ∧ (w'.decoded.drop w.decoded.length).count (directoryOf path ++ "/" ++ p) = 1
        ∧ (w'.decoded.drop w.decoded.length)[j]? = some (directoryOf path ++ "/" ++ p)
        ∧ r.id = env.genTexture (w.nTextures + j)
        ∧ w'.gl = w.gl ++ g ∧ GLCall.GenTextures r.id ∈ g
        ∧ w'.cerr = w.cerr ++ e ∧ ("Texture failed to load at path: " ++ p) ∈ e := by
  constructor
  · intro w0
    rw [TextureFromFile_none env p (directoryOf path) w0 hfail]
    exact ⟨rfl, rfl, rfl⟩
  · obtain ⟨m', w', built, hload, hmeshes, hall, hcache, hgrow⟩ :=
      loadModel_spec env path (Model.initial matrices gamma) w scene root hread hflags hroot
        hvalid
    have hb : m'.meshes = built := by rw [hmeshes]; simp [Model.initial]
    obtain ⟨b, hbk, mesh', mat', hmesh', hmat', _, _, hpaths⟩ :=
      forall₂_getElem? hall k idx hk
    rw [hmesh] at hmesh'
    cases hmesh'
    rw [hmat] at hmat'
    cases hmat'
    have hpl : p ∈ b.textures.map Texture.path := by
      rw [hpaths]
      unfold aiMaterial.loadedPaths
      simp only [List.mem_append]
      tauto
    obtain ⟨r, hr, hrp⟩ := List.mem_map.1 hpl
    have hrc : r ∈ m'.textures_loaded := hcache b (List.getElem?_mem hbk) r hr
    obtain ⟨_, _, _, added, g, e, hadded, hg, he, hd, _, hu, _, hrec⟩ := hgrow
    simp only [] at hd hrec
    have hra : r ∈ added := by
      rw [hadded] at hrc
      simpa [Model.initial] using hrc
    obtain ⟨hgen, hline, w0, hx0, hid, hx1⟩ := hrec r hra
    rw [hrp] at hline hid hx1
    have hdrop : w'.decoded.drop w.decoded.length
        = added.map (fun t => directoryOf path ++ "/" ++ t.path) := by
      rw [hd, List.drop_left]
    have hcount : (w'.decoded.drop w.decoded.length).count (directoryOf path ++ "/" ++ p)
        = 1 := by
      rw [hdrop]
      apply List.count_eq_one_of_mem
      · have hmm : added.map (fun t => directoryOf path ++ "/" ++ t.path)
            = (added.map Texture.path).map (fun q => directoryOf path ++ "/" ++ q) := by
          rw [List.map_map]; rfl
        rw [hmm]
        exact hu.map (string_append_left_injective _)
      · exact List.mem_map.2 ⟨r, hra, by rw [hrp]⟩
    obtain ⟨g0, e0, d0, _, _, hd0, hn0⟩ := hx0
    obtain ⟨g1, e1, d1, _, _, hd1, _⟩ := hx1
    rw [TextureFromFile_decoded, hd0] at hd1
    have hj : (w'.decoded.drop w.decoded.length)[d0.length]?
        = some (directoryOf path ++ "/" ++ p) := by
      rw [hd1, List.append_assoc, List.append_assoc, List.drop_left,
        List.getElem?_append_right (Nat.le_refl _), Nat.sub_self]
      simp
    refine ⟨m', w', b, r, w0, d0.length, g, e, hload, by rw [hb]; exact hbk, hr, hrp, hrc,
      ⟨g0, e0, d0, by assumption, by assumption, hd0, hn0⟩, hid,
      ⟨g1, e1, d1, by assumption, by assumption, ?_, by assumption⟩, hcount, hj, ?_, hg, hgen,
      he, hline hfail⟩
    · rw [hd1, TextureFromFile_decoded, hd0]
    · rw [hid, TextureFromFile_fst, hn0]

/-- C6, witness: a one-mesh scene whose material has the diffuse texture `gone.png`, a file
the decoder does not find. -/
theorem C6_undecodable_texture_still_recorded_witness :
    ∃ m' w' built r w0 g e,
        Model.loadModel (sampleEnv (some (singleMeshScene missingDiffuseMaterial)))
          "assets/cube.obj" (Model.initial [Mat4.identity] false) World.empty = some (m', w')
        ∧ m'.meshes[0]? = some built
        ∧ r ∈ built.textures ∧ r.path = "gone.png" ∧ r ∈ m'.textures_loaded
        ∧ r.id = (TextureFromFile (sampleEnv (some (singleMeshScene missingDiffuseMaterial)))
            "gone.png" (directoryOf "assets/cube.obj") w0).1
        ∧ w'.gl = World.empty.gl ++ g ∧ GLCall.GenTextures r.id ∈ g
        ∧ w'.cerr = World.empty.cerr ++ e
        ∧ ("Texture failed to load at path: " ++ "gone.png") ∈ e := by
  obtain ⟨m', w', built, r, w0, j, g, e, h1, h2, h3, h4, h5, _, h7, _, _, _, _, h12, h13, h14,
      h15⟩ :=
    (C6_undecodable_texture_still_recorded
      (sampleEnv (some (singleMeshScene missingDiffuseMaterial))) "assets/cube.obj"
      [Mat4.identity] false World.empty (singleMeshScene missingDiffuseMaterial)
      (aiNode.mk [0] []) 0 0 sampleMesh missingDiffuseMaterial "gone.png" rfl (by decide) rfl
      (by decide) (by decide) rfl rfl (Or.inl (by decide)) (by decide)).2
  exact ⟨m', w', built, r, w0, g, e, h1, h2, h3, h4, h5, h7, h12, h13, h14, h15⟩

/-- C6, counterexample to the claim as stated for every material: a material that references
the undecodable file `bump.png` in the slot `aiTextureType_NORMALS` is flattened without any
record for that path, in the mesh or in the cache, and without a failure line; and a
material of the scene that no mesh uses, referencing the undecodable file `gone.png` as its
diffuse texture, leaves no record and no failure line either. -/
theorem C6_counterexample_unread_slot :
    ("bump.png" ∈ normalsOnlyMaterial.textures aiTextureType.NORMALS
      ∧ (sampleEnv (some (singleMeshScene normalsOnlyMaterial))).stbi_load
          (directoryOf "assets/cube.obj" ++ "/" ++ "bump.png") = none
      ∧ (Model.loadModel (sampleEnv (some (singleMeshScene normalsOnlyMaterial)))
          "assets/cube.obj" (Model.initial [Mat4.identity] false) World.empty).map
            (fun r => (r.1.meshes.map Mesh.textures, r.1.textures_loaded, r.2.cerr))
          = some ([[]], [], []))
    ∧ (unusedMaterialScene.mMaterials[1]? = some missingDiffuseMaterial
      ∧ "gone.png" ∈ missingDiffuseMaterial.textures aiTextureType.DIFFUSE
      ∧ (sampleEnv (some unusedMaterialScene)).stbi_load
          (directoryOf "assets/cube.obj" ++ "/" ++ "gone.png") = none
      ∧ (Model.loadModel (sampleEnv (some unusedMaterialScene))
          "assets/cube.obj" (Model.initial [Mat4.identity] false) World.empty).map
            (fun r => (r.1.meshes.map (fun x => x.textures.map Texture.path),
              r.1.textures_loaded.map Texture.path, r.2.cerr))
          = some ([["wood.png"]], ["wood.png"], [])) := by
  refine ⟨⟨by decide, by decide, by decide⟩, ⟨rfl, by decide, by decide, by decide⟩⟩

/-! ## C9: the texture list of a mesh -/

/-- C9 (as amended): for a well-formed source mesh, `Model::processMesh` succeeds and the
texture list of the mesh it builds is the concatenation of the results of four successive
`Model::loadMaterialTextures` calls, in the fixed role order diffuse, specular, normal,
height; the diffuse role is fed from the slot `aiTextureType_DIFFUSE`, the specular role from
`aiTextureType_SPECULAR`, the normal role from `aiTextureType_HEIGHT` and the height role from
`aiTextureType_AMBIENT`, and the paths of each sub-list are the paths of its slot in the
material's index order. -/
theorem C9_texture_list_by_role_order (env : Env) (scene : aiScene) (mesh : aiMesh)
    (m : Model) (w : World) (hv : mesh.valid scene = true) :
    ∃ mat built diffuseMaps specularMaps normalMaps heightMaps m1 w1 m2 w2 m3 w3 m4 w4 w',
      scene.mMaterials[mesh.mMaterialIndex]? = some mat
      ∧ Model.loadMaterialTextures env mat aiTextureType.DIFFUSE "texture_diffuse" m w
          = (diffuseMaps, m1, w1)
      ∧ Model.loadMaterialTextures env mat aiTextureType.SPECULAR "texture_specular" m1 w1
          = (specularMaps, m2, w2)
      ∧ Model.loadMaterialTextures env mat aiTextureType.HEIGHT "texture_normal" m2 w2
          = (normalMaps, m3, w3)
      ∧ Model.loadMaterialTextures env mat aiTextureType.AMBIENT "texture_height" m3 w3
          = (heightMaps, m4, w4)
      ∧ Model.processMesh env scene mesh m w = some (built, m4, w')
      ∧ built.textures = diffuseMaps ++ specularMaps ++ normalMaps ++ heightMaps
      ∧ diffuseMaps.map Texture.path = mat.textures aiTextureType.DIFFUSE
      ∧ specularMaps.map Texture.path = mat.textures aiTextureType.SPECULAR
      ∧ normalMaps.map Texture.path = mat.textures aiTextureType.HEIGHT
      ∧ heightMaps.map Texture.path = mat.textures aiTextureType.AMBIENT := by
  obtain ⟨vs, hvs⟩ := processVertices_isSome scene mesh hv mesh.mVertices.length 0 [] (by omega)
  have hmat : mesh.mMaterialIndex < scene.mMaterials.length := by
    unfold aiMesh.valid at hv
    simp only [Bool.and_eq_true, decide_eq_true_eq] at hv
    exact hv.1.1
  have hget := List.getElem?_eq_getElem hmat
  generalize scene.mMaterials[mesh.mMaterialIndex] = mat at hget
  generalize hD : Model.loadMaterialTextures env mat aiTextureType.DIFFUSE "texture_diffuse"
    m w = rD
  obtain ⟨tD, mD, wD⟩ := rD
  generalize hS : Model.loadMaterialTextures env mat aiTextureType.SPECULAR "texture_specular"
    mD wD = rS
  obtain ⟨tS, mS, wS⟩ := rS
  generalize hN : Model.loadMaterialTextures env mat aiTextureType.HEIGHT "texture_normal"
    mS wS = rN
  obtain ⟨tN, mN, wN⟩ := rN
  generalize hA : Model.loadMaterialTextures env mat aiTextureType.AMBIENT "texture_height"
    mN wN = rA
  obtain ⟨tA, mA, wA⟩ := rA
  have d1 := (loadTextureLoop_spec env "texture_diffuse"
    (mat.textures aiTextureType.DIFFUSE) m w).1
  have s1 := (loadTextureLoop_spec env "texture_specular"
    (mat.textures aiTextureType.SPECULAR) mD wD).1
  have n1 := (loadTextureLoop_spec env "texture_normal"
    (mat.textures aiTextureType.HEIGHT) mS wS).1
  have a1 := (loadTextureLoop_spec env "texture_height"
    (mat.textures aiTextureType.AMBIENT) mN wN).1
  unfold Model.loadMaterialTextures at hD hS hN hA
  rw [hD] at d1
  rw [hS] at s1
  rw [hN] at n1
  rw [hA] at a1
  refine ⟨mat, (Mesh.ctor env vs (processFaces mesh.mFaces []) (tD ++ tS ++ tN ++ tA) wA).1,
    tD, tS, tN, tA, mD, wD, mS, wS, mN, wN, mA, wA,
    (Mesh.ctor env vs (processFaces mesh.mFaces []) (tD ++ tS ++ tN ++ tA) wA).2,
    hget, ?_, ?_, ?_, ?_, ?_, rfl, d1, s1, n1, a1⟩
  · exact hD
  · exact hS
  · exact hN
  · exact hA
  · simp only [Model.processMesh, hvs, hget, Model.loadMaterialTextures, hD, hS, hN, hA,
      List.nil_append]

/-- C9, witness: the sample triangle with one diffuse texture. -/
theorem C9_texture_list_by_role_order_witness :
    ∃ built m' w',
      Model.processMesh (sampleEnv none) (singleMeshScene sampleMaterial) sampleMesh
        (Model.initial [] false) World.empty = some (built, m', w')
      ∧ built.textures.map Texture.path = ["wood.png"] := by
  obtain ⟨mat, built, d, s, n, h, m1, w1, m2, w2, m3, w3, m4, w4, w', hmat, _, _, _, _, hpm,
      hts, hd, hs, hn, hh⟩ :=
    C9_texture_list_by_role_order (sampleEnv none) (singleMeshScene sampleMaterial) sampleMesh
      (Model.initial [] false) World.empty (by decide)
  refine ⟨built, m4, w', hpm, ?_⟩
  have hm : mat = sampleMaterial := by
    have : (singleMeshScene sampleMaterial).mMaterials[sampleMesh.mMaterialIndex]?
        = some sampleMaterial := rfl
    rw [this] at hmat
    exact (Option.some.inj hmat).symm
  subst hm
  rw [hts]
  simp only [List.map_append, hd, hs, hn, hh]
  rfl

/-- C9, counterexample to the slot of the same name as the role: a normal map held in the
slot `aiTextureType_NORMALS` does not reach the texture list at all, and a texture held in
the slot `aiTextureType_HEIGHT` is loaded under the role `texture_normal`, not
`texture_height`. -/
theorem C9_counterexample_slot_of_role :
    normalsOnlyMaterial.specRolePaths = ["bump.png"]
      ∧ (Model.processMesh (sampleEnv none) (singleMeshScene normalsOnlyMaterial) sampleMesh
          (Model.initial [] false) World.empty).map (fun r => r.1.textures) = some []
      ∧ (Model.processMesh (sampleEnv none) (singleMeshScene heightOnlyMaterial) sampleMesh
          (Model.initial [] false) World.empty).map (fun r => r.1.textures)
          = some [⟨1, "texture_normal", "wood.png"⟩] := by
  refine ⟨by decide, by decide, by decide⟩

/-! ## C10: the index list of a mesh -/

theorem flatMap_triangles (faces : List aiFace)
    (h : ∀ face ∈ faces, face.mIndices.length = 3) :
    (faces.flatMap (fun face => face.mIndices)).length = 3 * faces.length
      ∧ ∀ (f j : Nat) (face : aiFace), faces[f]? = some face → j < 3 →
          (faces.flatMap (fun face => face.mIndices))[3 * f + j]? = face.mIndices[j]? := by
  induction faces with
  | nil => exact ⟨rfl, fun f j face hf => by simp at hf⟩
  | cons g rest ih =>
    have hg := h g (List.mem_cons_self _ _)
    obtain ⟨ihl, ihe⟩ := ih (fun face hface => h face (List.mem_cons_of_mem _ hface))
    constructor
    · rw [List.flatMap_cons, List.length_append, ihl, hg, List.length_cons]; ring
    · intro f j face hf hj
      rw [List.flatMap_cons]
      cases f with
      | zero =>
        simp only [List.getElem?_cons_zero, Option.some.injEq] at hf
        subst hf
        rw [Nat.mul_zero, Nat.zero_add, List.getElem?_append_left (by omega)]
      | succ f =>
        simp only [List.getElem?_cons_succ] at hf
        rw [List.getElem?_append_right (by omega), hg]
        have e : 3 * (f + 1) + j - 3 = 3 * f + j := by omega
        rw [e]
        exact ihe f j face hf hj

/-- C10: for a well-formed source mesh, `Model::processMesh` succeeds and the index list of
the mesh it builds is the concatenation of the faces' vertex indices, faces in stored order
and indices within a face in stored order; hence when all `F` faces are triangles the list
has length `3 * F` and its entry `3 * f + j` is index `j` of face `f`. -/
theorem C10_index_list_concatenates_faces (env : Env) (scene : aiScene) (mesh : aiMesh)
    (m : Model) (w : World) (hv : mesh.valid scene = true) :
    ∃ built m' w',
      Model.processMesh env scene mesh m w = some (built, m', w')
      ∧ built.indices = mesh.mFaces.flatMap (fun face => face.mIndices)
      ∧ ((∀ face ∈ mesh.mFaces, face.mIndices.length = 3) →
          built.indices.length = 3 * mesh.mFaces.length
          ∧ ∀ (f j : Nat) (face : aiFace), mesh.mFaces[f]? = some face → j < 3 →
              built.indices[3 * f + j]? = face.mIndices[j]?) := by
  obtain ⟨mat, vs, built, m', w', _, _, hpm, _, hbi, _⟩ :=
    processMesh_spec env scene mesh m w hv
  have hidx : built.indices = mesh.mFaces.flatMap (fun face => face.mIndices) := by
    rw [hbi, processFaces_eq]; rfl
  refine ⟨built, m', w', hpm, hidx, fun htri => ?_⟩
  rw [hidx]
  exact flatMap_triangles mesh.mFaces htri

/-- C10, witness: the sample triangle. -/
theorem C10_index_list_concatenates_faces_witness :
    ∃ built m' w',
      Model.processMesh (sampleEnv none) (singleMeshScene sampleMaterial) sampleMesh
        (Model.initial [] false) World.empty = some (built, m', w')
      ∧ built.indices = [0, 1, 2] ∧ built.indices.length = 3 * 1 := by
  obtain ⟨built, m', w', h1, h2, h3⟩ :=
    C10_index_list_concatenates_faces (sampleEnv none) (singleMeshScene sampleMaterial)
      sampleMesh (Model.initial [] false) World.empty (by decide)
  exact ⟨built, m', w', h1, h2, (h3 (by decide)).1⟩

/-! ## Order of first request -/

theorem mem_firstRequested (l : List String) (p : String) : p ∈ firstRequested l ↔ p ∈ l := by
  induction l with
  | nil => simp [firstRequested]
  | cons q rest ih =>
    simp only [firstRequested, List.mem_cons, List.mem_filter, ih, decide_eq_true_eq]
    constructor
    · rintro (h | ⟨h, _⟩)
      · exact Or.inl h
      · exact Or.inr h
    · rintro (h | h)
      · exact Or.inl h
      · by_cases hpq : p = q
        · exact Or.inl hpq
        · exact Or.inr ⟨h, hpq⟩

theorem nodup_firstRequested (l : List String) : (firstRequested l).Nodup := by
  induction l with
  | nil => simp [firstRequested]
  | cons q rest ih =>
    rw [firstRequested, List.nodup_cons]
    refine ⟨?_, ih.filter _⟩
    simp [List.mem_filter]

theorem filter_filter_not_mem (l seen : List String) (q : String) :
    (l.filter (fun y => decide (y ≠ q))).filter (fun y => decide (y ∉ seen))
      = l.filter (fun y => decide (y ∉ seen ++ [q])) := by
  rw [List.filter_filter]
  apply List.filter_congr
  intro y _
  simp only [List.mem_append, List.mem_singleton, not_or, Bool.decide_and, ne_eq,
    Bool.and_eq_true, decide_eq_true_eq, decide_not, Bool.not_eq_true', decide_eq_false_iff_not]

theorem filter_not_mem_of_mem (l seen : List String) (q : String) (hq : q ∈ seen) :
    (l.filter (fun y => decide (y ≠ q))).filter (fun y => decide (y ∉ seen))
      = l.filter (fun y => decide (y ∉ seen)) := by
  rw [List.filter_filter]
  apply List.filter_congr
  intro y _
  by_cases hy : y ∈ seen
  · simp [hy]
  · have : y ≠ q := fun h => hy (h ▸ hq)
    simp [hy, this]

theorem firstRequested_append (a b : List String) :
    firstRequested (a ++ b)
      = firstRequested a ++ (firstRequested b).filter (fun y => decide (y ∉ a)) := by
  induction a with
  | nil => simp [firstRequested]
  | cons x a ih =>
    rw [List.cons_append, firstRequested, ih, firstRequested, List.filter_append,
      List.cons_append]
    congr 2
    rw [List.filter_filter]
    apply List.filter_congr
    intro y _
    by_cases hx : y = x
    · simp [hx]
    · simp [hx]

theorem firstRequested_split (seen a b : List String) :
    (firstRequested (a ++ b)).filter (fun q => decide (q ∉ seen))
      = (firstRequested a).filter (fun q => decide (q ∉ seen))
        ++ (firstRequested b).filter (fun q => decide
            (q ∉ seen ++ (firstRequested a).filter (fun q => decide (q ∉ seen)))) := by
  rw [firstRequested_append, List.filter_append, List.filter_filter]
  congr 1
  apply List.filter_congr
  intro y _
  by_cases hy : y ∈ seen
  · simp [hy]
  · by_cases hya : y ∈ a
    · simp [hy, hya, List.mem_filter, mem_firstRequested]
    · simp [hy, hya, List.mem_filter, mem_firstRequested]

/-! ## The cache over a sequence of calls -/

/-- What one run of the loop of `Model::loadMaterialTextures` does to the cache: the paths
requested for the first time are appended in order of first request, with one
`TextureFromFile` call (one decode, one generated name) for each of them. -/
theorem loadTextureLoop_cache (env : Env) (typeName : String) (ps : List String) :
    ∀ (m : Model) (w : World),
      (Model.loadTextureLoop env typeName ps [] m w).2.1.textures_loaded.map Texture.path
          = m.textures_loaded.map Texture.path
            ++ (firstRequested ps).filter
                (fun q => decide (q ∉ m.textures_loaded.map Texture.path))
      ∧ (Model.loadTextureLoop env typeName ps [] m w).2.2.decoded
          = w.decoded ++ ((firstRequested ps).filter
                (fun q => decide (q ∉ m.textures_loaded.map Texture.path))).map
                  (fun q => m.directory ++ "/" ++ q)
      ∧ (Model.loadTextureLoop env typeName ps [] m w).2.2.nTextures
          = w.nTextures + ((firstRequested ps).filter
                (fun q => decide (q ∉ m.textures_loaded.map Texture.path))).length
      ∧ (Model.loadTextureLoop env typeName ps [] m w).2.1.directory = m.directory := by
  induction ps with
  | nil => intro m w; simp [Model.loadTextureLoop, firstRequested]
  | cons p rest ih =>
    intro m w
    cases hf : findLoaded m.textures_loaded p with
    | some r =>
      have hp : p ∈ m.textures_loaded.map Texture.path :=
        List.mem_map.2 ⟨r, (findLoaded_some hf).1, (findLoaded_some hf).2⟩
      rw [loadTextureLoop_hit env typeName p rest m w r hf]
      have hfil : (firstRequested (p :: rest)).filter
          (fun q => decide (q ∉ m.textures_loaded.map Texture.path))
            = (firstRequested rest).filter
                (fun q => decide (q ∉ m.textures_loaded.map Texture.path)) := by
        rw [firstRequested, List.filter_cons]
        simp only [hp, not_true_eq_false, decide_False, Bool.false_eq_true, if_false]
        exact filter_not_mem_of_mem _ _ p hp
      rw [hfil]
      exact ih m w
    | none =>
      have hp : p ∉ m.textures_loaded.map Texture.path := by
        intro hmem
        obtain ⟨r, hr, hrp⟩ := List.mem_map.1 hmem
        exact findLoaded_eq_none.1 hf r hr hrp
      rw [loadTextureLoop_miss env typeName p rest m w hf]
      obtain ⟨h1, h2, h3, h4⟩ := ih
        { m with textures_loaded := m.textures_loaded
            ++ [⟨(TextureFromFile env p m.directory w).1, typeName, p⟩] }
        (TextureFromFile env p m.directory w).2
      have hfil : (firstRequested (p :: rest)).filter
          (fun q => decide (q ∉ m.textures_loaded.map Texture.path))
            = p :: (firstRequested rest).filter
                (fun q => decide (q ∉ m.textures_loaded.map Texture.path ++ [p])) := by
        rw [firstRequested, List.filter_cons]
        simp only [hp, not_false_eq_true, decide_True, if_true]
        rw [filter_filter_not_mem]
      simp only [List.map_append, List.map_cons, List.map_nil] at h1 h2 h3
      rw [hfil]
      refine ⟨?_, ?_, ?_, h4⟩
      · rw [h1]; simp
      · rw [h2, TextureFromFile_decoded]; simp
      · rw [h3, TextureFromFile_nTextures]; simp; omega

/-- The cache after a sequence of calls, from any starting state. -/
theorem loadCalls_cache (env : Env) (calls : List LoadCall) :
    ∀ (m : Model) (w : World),
      (Model.loadCalls env calls m w).1.textures_loaded.map Texture.path
          = m.textures_loaded.map Texture.path
            ++ (firstRequested (requestedPaths calls)).filter
                (fun q => decide (q ∉ m.textures_loaded.map Texture.path))
      ∧ (Model.loadCalls env calls m w).2.decoded
          = w.decoded ++ ((firstRequested (requestedPaths calls)).filter
                (fun q => decide (q ∉ m.textures_loaded.map Texture.path))).map
                  (fun q => m.directory ++ "/" ++ q)
      ∧ (Model.loadCalls env calls m w).2.nTextures
          = w.nTextures + ((firstRequested (requestedPaths calls)).filter
                (fun q => decide (q ∉ m.textures_loaded.map Texture.path))).length
      ∧ (Model.loadCalls env calls m w).1.directory = m.directory := by
  induction calls with
  | nil => intro m w; simp [Model.loadCalls, requestedPaths, firstRequested]
  | cons c rest ih =>
    intro m w
    obtain ⟨c1, c2, c3, c4⟩ := loadTextureLoop_cache env c.typeName (c.mat.textures c.type) m w
    obtain ⟨h1, h2, h3, h4⟩ := ih
      (Model.loadMaterialTextures env c.mat c.type c.typeName m w).2.1
      (Model.loadMaterialTextures env c.mat c.type c.typeName m w).2.2
    unfold Model.loadMaterialTextures at h1 h2 h3 h4
    have hreq : requestedPaths (c :: rest) = c.mat.textures c.type ++ requestedPaths rest := by
      simp [requestedPaths]
    have hsplit := firstRequested_split (m.textures_loaded.map Texture.path)
      (c.mat.textures c.type) (requestedPaths rest)
    rw [← hreq] at hsplit
    rw [Model.loadCalls]
    unfold Model.loadMaterialTextures
    rw [h1, h2, h3, h4, c1, c2, c3, c4, hsplit]
    refine ⟨by simp, by simp, by simp; omega, rfl⟩

/-! ## C11: the cache invariant -/

/-- C11: after any sequence of `Model::loadMaterialTextures` calls that starts from an empty
cache, the paths of the records of `textures_loaded` are exactly the distinct paths requested
so far, each once (no two records have equal paths), in order of first request, and
`TextureFromFile` has been called exactly once for each of them, in that order: the files
decoded during the sequence are these paths under the model's directory, and as many texture
names were generated as there are records. -/
theorem C11_cache_one_record_per_requested_path (env : Env) (calls : List LoadCall)
    (m : Model) (w : World) (hempty : m.textures_loaded = []) :
    (Model.loadCalls env calls m w).1.textures_loaded.map Texture.path
        = firstRequested (requestedPaths calls)
    ∧ ((Model.loadCalls env calls m w).1.textures_loaded.map Texture.path).Nodup
    ∧ (∀ p : String, p ∈ (Model.loadCalls env calls m w).1.textures_loaded.map Texture.path
          ↔ p ∈ requestedPaths calls)
    ∧ (Model.loadCalls env calls m w).2.decoded
        = w.decoded ++ (firstRequested (requestedPaths calls)).map
            (fun p => m.directory ++ "/" ++ p)
    ∧ (Model.loadCalls env calls m w).2.nTextures
        = w.nTextures + (Model.loadCalls env calls m w).1.textures_loaded.length := by
  obtain ⟨h1, h2, h3, _⟩ := loadCalls_cache env calls m w
  have hfil : (firstRequested (requestedPaths calls)).filter
      (fun q => decide (q ∉ m.textures_loaded.map Texture.path))
        = firstRequested (requestedPaths calls) := by
    rw [hempty]; simp
  rw [hfil] at h1 h2 h3
  rw [hempty, List.map_nil, List.nil_append] at h1
  refine ⟨h1, ?_, ?_, h2, ?_⟩
  · rw [h1]; exact nodup_firstRequested _
  · intro p; rw [h1]; exact mem_firstRequested _ p
  · rw [h3, ← h1, List.length_map]

/-- C11, witness: `wood.png` requested twice and `gone.png` once, from the empty cache. -/
theorem C11_cache_one_record_per_requested_path_witness :
    (Model.loadCalls (sampleEnv none) sampleCalls (Model.initial [] false)
        World.empty).1.textures_loaded.map Texture.path = ["wood.png", "gone.png"]
    ∧ (Model.loadCalls (sampleEnv none) sampleCalls (Model.initial [] false)
        World.empty).2.decoded = ["/wood.png", "/gone.png"] := by
  obtain ⟨h1, _, _, h4, _⟩ := C11_cache_one_record_per_requested_path (sampleEnv none)
    sampleCalls (Model.initial [] false) World.empty rfl
  exact ⟨h1.trans (by decide), h4.trans (by decide)⟩

/-! ## Roles of the cached records -/

theorem findLoaded_append_none (l : List Texture) (t : Texture) (p : String)
    (h : findLoaded l p = none) (ht : t.path ≠ p) : findLoaded (l ++ [t]) p = none := by
  rw [findLoaded_eq_none] at h ⊢
  intro r hr
  rcases List.mem_append.1 hr with hr | hr
  · exact h r hr
  · rw [List.mem_singleton.1 hr]; exact ht

/-- The record the loop of `Model::loadMaterialTextures` returns at each position. -/
theorem loadTextureLoop_at (env : Env) (typeName : String) (ps : List String) :
    ∀ (m : Model) (w : World) (i : Nat) (p : String), ps[i]? = some p →
      ∃ t, (Model.loadTextureLoop env typeName ps [] m w).1[i]? = some t ∧ t.path = p
        ∧ (∀ r, findLoaded m.textures_loaded p = some r → t = r)
        ∧ (findLoaded m.textures_loaded p = none → t.type = typeName) := by
  induction ps with
  | nil => intro m w i p hi; simp at hi
  | cons q rest ih =>
    intro m w i p hi
    cases hf : findLoaded m.textures_loaded q with
    | some r0 =>
      rw [loadTextureLoop_hit env typeName q rest m w r0 hf]
      cases i with
      | zero =>
        simp only [List.getElem?_cons_zero, Option.some.injEq] at hi
        subst hi
        refine ⟨r0, by simp, (findLoaded_some hf).2, ?_, ?_⟩
        · intro r hr; rw [hf] at hr; exact Option.some.inj hr
        · intro hn; rw [hf] at hn; exact Option.noConfusion hn
      | succ k =>
        simp only [List.getElem?_cons_succ] at hi
        obtain ⟨t, h1, h2, h3, h4⟩ := ih m w k p hi
        exact ⟨t, by simpa using h1, h2, h3, h4⟩
    | none =>
      rw [loadTextureLoop_miss env typeName q rest m w hf]
      cases i with
      | zero =>
        simp only [List.getElem?_cons_zero, Option.some.injEq] at hi
        subst hi
        refine ⟨⟨(TextureFromFile env q m.directory w).1, typeName, q⟩, by simp, rfl,
          ?_, ?_⟩
        · intro r hr; rw [hf] at hr; exact Option.noConfusion hr
        · intro _; rfl
      | succ k =>
        simp only [List.getElem?_cons_succ] at hi
        obtain ⟨t, h1, h2, h3, h4⟩ := ih
          { m with textures_loaded := m.textures_loaded
              ++ [⟨(TextureFromFile env q m.directory w).1, typeName, q⟩] }
          (TextureFromFile env q m.directory w).2 k p hi
        refine ⟨t, by simpa using h1, h2, ?_, ?_⟩
        · intro r hr
          exact h3 r (findLoaded_append_of_some _ _ p r hr)
        · intro hn
          by_cases hqp : q = p
          · subst hqp
            have := h3 _ (findLoaded_append_self m.textures_loaded
              ⟨(TextureFromFile env q m.directory w).1, typeName, q⟩ hf)
            rw [this]
          · exact h4 (findLoaded_append_none _ _ p hn hqp)

/-- The records one run of the loop adds to the cache. -/
theorem loadTextureLoop_added (env : Env) (typeName : String) (ps : List String) :
    ∀ (m : Model) (w : World),
      ∃ added, (Model.loadTextureLoop env typeName ps [] m w).2.1.textures_loaded
          = m.textures_loaded ++ added
        ∧ ∀ r ∈ added, r.type = typeName ∧ r.path ∈ ps
            ∧ r.path ∉ m.textures_loaded.map Texture.path := by
  induction ps with
  | nil => intro m w; exact ⟨[], by simp [Model.loadTextureLoop], by simp⟩
  | cons q rest ih =>
    intro m w
    cases hf : findLoaded m.textures_loaded q with
    | some r0 =>
      rw [loadTextureLoop_hit env typeName q rest m w r0 hf]
      obtain ⟨added, h1, h2⟩ := ih m w
      exact ⟨added, h1, fun r hr => ⟨(h2 r hr).1, List.mem_cons_of_mem _ (h2 r hr).2.1,
        (h2 r hr).2.2⟩⟩
    | none =>
      rw [loadTextureLoop_miss env typeName q rest m w hf]
      obtain ⟨added, h1, h2⟩ := ih
        { m with textures_loaded := m.textures_loaded
            ++ [⟨(TextureFromFile env q m.directory w).1, typeName, q⟩] }
        (TextureFromFile env q m.directory w).2
      refine ⟨⟨(TextureFromFile env q m.directory w).1, typeName, q⟩ :: added, ?_, ?_⟩
      · rw [h1]; simp
      · intro r hr
        rcases List.mem_cons.1 hr with hr | hr
        · subst hr
          refine ⟨rfl, List.mem_cons_self _ _, ?_⟩
          intro hmem
          obtain ⟨r', hr', hrp⟩ := List.mem_map.1 hmem
          exact findLoaded_eq_none.1 hf r' hr' hrp
        · obtain ⟨a, b, c⟩ := h2 r hr
          refine ⟨a, List.mem_cons_of_mem _ b, fun hmem => c ?_⟩
          simp only [List.map_append, List.mem_append]
          exact Or.inl hmem

/-- Every record a sequence of calls adds to the cache has the role name of the call that
first requested its path. -/
theorem loadCalls_roles (env : Env) (calls : List LoadCall) :
    ∀ (m : Model) (w : World), ∀ r ∈ (Model.loadCalls env calls m w).1.textures_loaded,
      r ∈ m.textures_loaded
        ∨ (r.path ∉ m.textures_loaded.map Texture.path
            ∧ firstRole calls r.path = some r.type) := by
  induction calls with
  | nil => intro m w r hr; exact Or.inl hr
  | cons c rest ih =>
    intro m w r hr
    rw [Model.loadCalls] at hr
    obtain ⟨added, hadd, hrec⟩ :=
      loadTextureLoop_added env c.typeName (c.mat.textures c.type) m w
    have hcache := (loadTextureLoop_cache env c.typeName (c.mat.textures c.type) m w).1
    unfold Model.loadMaterialTextures at hr
    rcases ih _ _ r hr with h | ⟨h1, h2⟩
    · rw [hadd] at h
      rcases List.mem_append.1 h with h | h
      · exact Or.inl h
      · obtain ⟨a, b, c'⟩ := hrec r h
        refine Or.inr ⟨c', ?_⟩
        rw [firstRole, if_pos b, a]
    · have hnot : r.path ∉ c.mat.textures c.type := by
        intro hin
        apply h1
        rw [hcache]
        by_cases hs : r.path ∈ m.textures_loaded.map Texture.path
        · exact List.mem_append_left _ hs
        · exact List.mem_append_right _
            (List.mem_filter.2 ⟨(mem_firstRequested _ _).2 hin, by simpa using hs⟩)
      refine Or.inr ⟨?_, ?_⟩
      · intro hs
        apply h1
        rw [hcache]
        exact List.mem_append_left _ hs
      · rw [firstRole, if_neg hnot]; exact h2

/-! ## C12: the cache is keyed by path only -/

/-- C12: let `Model::loadMaterialTextures` be asked for the role `typeName` and let the slot
hold the path `p` at position `i`. The record returned at position `i` has the path `p`. If
`p` is already cached, the returned record is the cached record itself, with the role it was
stored with, so its role differs from `typeName` whenever the stored role does; if `p` is not
cached, the record is created by this call and its role is `typeName`. After any sequence of
calls from an empty cache that requested `p`, the record returned for `p` has the role name
of the call that requested `p` first. -/
theorem C12_cached_record_keeps_first_role (env : Env) (mat : aiMaterial)
    (type : aiTextureType) (typeName : String) (m : Model) (w : World) (i : Nat) (p : String)
    (hi : (mat.textures type)[i]? = some p) :
    (∃ t, (Model.loadMaterialTextures env mat type typeName m w).1[i]? = some t ∧ t.path = p
      ∧ (∀ r, findLoaded m.textures_loaded p = some r →
          t = r ∧ (r.type ≠ typeName → t.type ≠ typeName))
      ∧ ((∀ r ∈ m.textures_loaded, r.path ≠ p) → t.type = typeName))
    ∧ (∀ (calls : List LoadCall) (m0 : Model) (w0 : World), m0.textures_loaded = [] →
        p ∈ requestedPaths calls →
        ∃ t role, (Model.loadMaterialTextures env mat type typeName
            (Model.loadCalls env calls m0 w0).1 (Model.loadCalls env calls m0 w0).2).1[i]?
              = some t
          ∧ t.path = p ∧ firstRole calls p = some role ∧ t.type = role) := by
  constructor
  · obtain ⟨t, h1, h2, h3, h4⟩ :=
      loadTextureLoop_at env typeName (mat.textures type) m w i p hi
    refine ⟨t, h1, h2, ?_, fun hn => h4 (findLoaded_eq_none.2 hn)⟩
    intro r hr
    have htr := h3 r hr
    exact ⟨htr, fun hne => by rw [htr]; exact hne⟩
  · intro calls m0 w0 hempty hp
    obtain ⟨t, h1, h2, h3, _⟩ := loadTextureLoop_at env typeName (mat.textures type)
      (Model.loadCalls env calls m0 w0).1 (Model.loadCalls env calls m0 w0).2 i p hi
    have hmem :
        p ∈ (Model.loadCalls env calls m0 w0).1.textures_loaded.map Texture.path := by
      rw [(loadCalls_cache env calls m0 w0).1, hempty]
      simpa [mem_firstRequested] using hp
    cases hf : findLoaded (Model.loadCalls env calls m0 w0).1.textures_loaded p with
    | none =>
      obtain ⟨r, hr, hrp⟩ := List.mem_map.1 hmem
      exact absurd hrp (findLoaded_eq_none.1 hf r hr)
    | some r =>
      have htr := h3 r hf
      have hrole := loadCalls_roles env calls m0 w0 r (findLoaded_some hf).1
      rw [hempty] at hrole
      rcases hrole with hrole | ⟨_, hrole⟩
      · exact absurd hrole (List.not_mem_nil r)
      · rw [(findLoaded_some hf).2] at hrole
        exact ⟨t, r.type, h1, h2, hrole, by rw [htr]⟩

/-- C12, witness: `wood.png` is cached as a diffuse texture and requested as a specular one;
the record returned keeps the role `texture_diffuse`. The same happens inside one
`Model::processMesh` for a material that holds `wood.png` in both slots, and `Mesh::Draw`
then names both samplers after the diffuse role. -/
theorem C12_cached_record_keeps_first_role_witness :
    (∃ t, (Model.loadMaterialTextures (sampleEnv none) sharedTextureMaterial
          aiTextureType.SPECULAR "texture_specular" cachedModel World.empty).1[0]? = some t
        ∧ t = woodRecord ∧ t.type ≠ "texture_specular")
    ∧ (∃ t role, (Model.loadMaterialTextures (sampleEnv none) sharedTextureMaterial
          aiTextureType.SPECULAR "texture_specular"
          (Model.loadCalls (sampleEnv none) sampleCalls (Model.initial [] false) World.empty).1
          (Model.loadCalls (sampleEnv none) sampleCalls (Model.initial [] false)
            World.empty).2).1[0]? = some t
        ∧ t.path = "wood.png" ∧ firstRole sampleCalls "wood.png" = some role ∧ t.type = role)
    ∧ (Model.processMesh (sampleEnv none) (singleMeshScene sharedTextureMaterial) sampleMesh
          (Model.initial [] false) World.empty).map
            (fun r => (r.1.textures.map Texture.type,
              samplerNames (Mesh.Draw r.1 ⟨7⟩ 1 World.empty).gl))
        = some (["texture_diffuse", "texture_diffuse"],
            ["material.texture_diffuse1", "material.texture_diffuse2"]) := by
  refine ⟨?_, ?_, by decide⟩
  · obtain ⟨t, h1, _, h3, _⟩ := (C12_cached_record_keeps_first_role (sampleEnv none)
      sharedTextureMaterial aiTextureType.SPECULAR "texture_specular" cachedModel World.empty 0
      "wood.png" rfl).1
    obtain ⟨h4, h5⟩ := h3 woodRecord (by decide)
    exact ⟨t, h1, h4, h5 (by decide)⟩
  · exact (C12_cached_record_keeps_first_role (sampleEnv none) sharedTextureMaterial
      aiTextureType.SPECULAR "texture_specular" cachedModel World.empty 0 "wood.png" rfl).2
      sampleCalls (Model.initial [] false) World.empty rfl (by decide)
